import Mathlib

/-! # whisper-cpp-app: `examples/main/main.cpp`

A shallow embedding of the HTTP speech-to-text service in `main.cpp`:
the two request handlers (`/init_model`, `/run_detection`), `init_model`,
`run_detection`, `output_json` and `estimate_diarization_speaker`.

Conventions of the embedding:

* `std::string` is `String`, `std::vector<T>` is `List T`, `int32_t`/`int64_t` are `Int`
  (no arithmetic in this file can leave the machine range).
* A `float` or `double` sample is an `F64`: an IEEE 754 binary64 value (every `float` is one).
  Sums and products of doubles round to nearest, ties to even (`round64`); the sign of zero,
  which no comparison sees, is not kept.
* The `float` fields of the parameter structs are only copied, never computed with; they are
  carried as the rationals of their decimal initializers.
* The inference engine, the JSON library, base64, the WAV reader and the grammar
  parser are external libraries.  Their functions are the fields of `Engine`.
* A pointer is an `Option`; `nullptr` is `none`.
* A C++ execution with undefined behaviour (out-of-range `operator[]`, a null handle
  given to the engine) is the result `none` of the embedded function.
-/

namespace WhisperApp

/-! ## IEEE 754 binary64 arithmetic -/

/-- A `double`: not-a-number, plus or minus infinity, or a finite value given as the exact
rational it stands for. -/
inductive F64 where
  | nan
  | pinf
  | ninf
  | fin (q : ℚ)
  deriving DecidableEq, Repr

/-- Rounding of a rational to the nearest integer, a tie going to the even one. -/
def round_half_even (x : ℚ) : ℤ :=
  let f := ⌊x⌋
  let d := x - f
  if d < 1 / 2 then f
  else if 1 / 2 < d then f + 1
  else if f % 2 = 0 then f else f + 1

/-- Rounding of an exact result to binary64, to nearest, ties to even: 53 significant bits,
least exponent `-1022` (below it the spacing stays `2 ^ -1074`), overflow to infinity from
`2 ^ 1024` on. -/
def round64 (q : ℚ) : F64 :=
  if q = 0 then .fin 0
  else
    let e := max (Int.log 2 |q|) (-1022)
    let ulp : ℚ := 2 ^ (e - 52)
    let v := (round_half_even (q / ulp) : ℚ) * ulp
    if 2 ^ 1024 ≤ |v| then (if 0 < q then .pinf else .ninf) else .fin v

/-- The function `fabs`. -/
def F64.fabs : F64 → F64
  | .nan => .nan
  | .pinf => .pinf
  | .ninf => .pinf
  | .fin q => .fin |q|

/-- The sum `x + y` of doubles. -/
def F64.add : F64 → F64 → F64
  | .nan, _ => .nan
  | _, .nan => .nan
  | .pinf, .ninf => .nan
  | .ninf, .pinf => .nan
  | .pinf, _ => .pinf
  | _, .pinf => .pinf
  | .ninf, _ => .ninf
  | _, .ninf => .ninf
  | .fin a, .fin b => round64 (a + b)

/-- The product `x * y` of doubles. -/
def F64.mul : F64 → F64 → F64
  | .nan, _ => .nan
  | _, .nan => .nan
  | .pinf, .pinf => .pinf
  | .pinf, .ninf => .ninf
  | .ninf, .pinf => .ninf
  | .ninf, .ninf => .pinf
  | .pinf, .fin b => if b = 0 then .nan else if 0 < b then .pinf else .ninf
  | .ninf, .fin b => if b = 0 then .nan else if 0 < b then .ninf else .pinf
  | .fin a, .pinf => if a = 0 then .nan else if 0 < a then .pinf else .ninf
  | .fin a, .ninf => if a = 0 then .nan else if 0 < a then .ninf else .pinf
  | .fin a, .fin b => round64 (a * b)

/-- The comparison `x > y` of doubles; false as soon as one side is not a number. -/
def F64.gt : F64 → F64 → Bool
  | .nan, _ => false
  | _, .nan => false
  | .pinf, .pinf => false
  | .pinf, _ => true
  | .ninf, _ => false
  | .fin _, .pinf => false
  | .fin _, .ninf => true
  | .fin a, .fin b => decide (b < a)

/-- The literal `1.1`: the double nearest to 11/10. -/
def double_1_1 : F64 := round64 (11 / 10)

/-- The non-negative rationals that are finite doubles: `k * 2 ^ ex` with at most 53 bits in `k`
and the exponent in the binary64 range. -/
def binary64_value (x : ℚ) : Prop :=
  ∃ (k : ℕ) (ex : ℤ), k < 2 ^ 53 ∧ -1074 ≤ ex ∧ ex ≤ 971 ∧ x = k * 2 ^ ex

/-- The rationals that are finite `float` values (binary32): magnitude `k * 2 ^ ex` with at most
24 bits in `k` and the exponent in the binary32 range. -/
def binary32_value (x : ℚ) : Prop :=
  ∃ (k : ℕ) (ex : ℤ), k < 2 ^ 24 ∧ -149 ≤ ex ∧ ex ≤ 104 ∧ |x| = k * 2 ^ ex

/-- The values a `double` sum of absolute values can take: not-a-number, plus infinity, or a
finite double that is not negative. -/
def F64.is_energy : F64 → Prop
  | .nan => True
  | .pinf => True
  | .ninf => False
  | .fin q => binary64_value q

/-! ## Engine-side data -/

/-- The enum `whisper_sampling_strategy`. -/
inductive whisper_sampling_strategy where
  | WHISPER_SAMPLING_GREEDY
  | WHISPER_SAMPLING_BEAM_SEARCH
  deriving DecidableEq, Repr

/-- The enum `whisper_alignment_heads_preset`, as far as `init_model` names it. -/
inductive whisper_alignment_heads_preset where
  | WHISPER_AHEADS_NONE
  | WHISPER_AHEADS_TINY
  | WHISPER_AHEADS_TINY_EN
  | WHISPER_AHEADS_BASE
  | WHISPER_AHEADS_BASE_EN
  | WHISPER_AHEADS_SMALL
  | WHISPER_AHEADS_SMALL_EN
  | WHISPER_AHEADS_MEDIUM
  | WHISPER_AHEADS_MEDIUM_EN
  | WHISPER_AHEADS_LARGE_V1
  | WHISPER_AHEADS_LARGE_V2
  | WHISPER_AHEADS_LARGE_V3
  | WHISPER_AHEADS_LARGE_V3_TURBO
  deriving DecidableEq, Repr

/-- One element of a grammar rule (`whisper_grammar_element`): a type tag and a value. -/
structure whisper_grammar_element where
  type : Nat
  value : Nat
  deriving DecidableEq, Repr

/-- The result of the grammar parser, `grammar_parser::parse_state`: the symbol table
(`std::map<std::string, uint32_t>`, as an association list) and the rules. -/
structure parse_state where
  symbol_ids : List (String × Nat)
  rules : List (List whisper_grammar_element)
  deriving DecidableEq, Repr

/-- A default-constructed `parse_state`: no symbols, no rules. -/
def parse_state.empty : parse_state := { symbol_ids := [], rules := [] }

/-- The call `symbol_ids.find(name)`: `none` stands for `symbol_ids.end()`. -/
def parse_state.find (g : parse_state) (name : String) : Option Nat :=
  (g.symbol_ids.find? (fun kv => kv.1 == name)).map Prod.snd

/-- The call `c_rules()`: the rules as the engine takes them. -/
def parse_state.c_rules (g : parse_state) : List (List whisper_grammar_element) :=
  g.rules

/-- A loaded model, `whisper_context`: its address and the texts of the segments of the
last decode (what `whisper_full_n_segments` and `whisper_full_get_segment_text` read). -/
structure whisper_context where
  addr : Nat
  segments : List String
  deriving DecidableEq, Repr

/-- The call `whisper_full_n_segments(ctx)`. -/
def whisper_full_n_segments (ctx : whisper_context) : Nat :=
  ctx.segments.length

/-- The call `whisper_full_get_segment_text(ctx, i)`. -/
def whisper_full_get_segment_text (ctx : whisper_context) (i : Nat) : String :=
  ctx.segments.getD i ""

/-- The engine's `whisper_context_params`, as far as `init_model` sets it. -/
structure whisper_context_params where
  use_gpu : Bool
  flash_attn : Bool
  dtw_token_timestamps : Bool
  dtw_aheads_preset : whisper_alignment_heads_preset
  deriving DecidableEq, Repr

/-- The engine's `whisper_full_params`, as far as `run_detection` sets it.  A `const char *`
and the rule array are pointers (`none` is `nullptr`); a callback field holds the answer the
installed hook gives (`none`: no hook installed). -/
structure whisper_full_params where
  strategy : whisper_sampling_strategy
  print_realtime : Bool
  translate : Bool
  language : Option String
  detect_language : Bool
  n_threads : Int
  offset_ms : Int
  duration_ms : Int
  thold_pt : ℚ
  max_len : Int
  split_on_word : Bool
  audio_ctx : Int
  debug_mode : Bool
  suppress_regex : Option String
  initial_prompt : Option String
  greedy_best_of : Int
  beam_search_beam_size : Int
  temperature : ℚ
  entropy_thold : ℚ
  logprob_thold : ℚ
  grammar_rules : Option (List (List whisper_grammar_element))
  n_grammar_rules : Nat
  i_start_rule : Nat
  grammar_penalty : ℚ
  encoder_begin_callback : Option Bool
  abort_callback : Option Bool
  deriving DecidableEq

/-- The external libraries the program calls: `std::thread`, `whisper.h`, `common.h`,
`grammar-parser.h`, `base64.h`.  `whisper_full_parallel` gives the status and the context
with the segments of this decode; `read_wav` gives `(pcmf32, pcmf32s)` or fails. -/
structure Engine where
  hardware_concurrency : Nat
  whisper_full_default_params : whisper_sampling_strategy → whisper_full_params
  whisper_context_default_params : whisper_context_params
  whisper_lang_id : String → Int
  whisper_init_from_file_with_params : String → whisper_context_params → Option whisper_context
  whisper_ctx_init_openvino_encoder : whisper_context → String → whisper_context
  is_file_exist : String → Bool
  read_file : String → String
  parse : String → parse_state
  base64_decode : String → String
  read_wav : String → Option (List F64 × List (List F64))
  whisper_full_parallel :
    whisper_context → whisper_full_params → List F64 → Int → Int × whisper_context

/-! ## `whisper_params` -/

/-- The struct `whisper_params` (command-line parameters). -/
structure whisper_params where
  n_threads : Int
  n_processors : Int
  offset_t_ms : Int
  offset_n : Int
  duration_ms : Int
  progress_step : Int
  max_context : Int
  max_len : Int
  best_of : Int
  beam_size : Int
  audio_ctx : Int
  word_thold : ℚ
  entropy_thold : ℚ
  logprob_thold : ℚ
  grammar_penalty : ℚ
  temperature : ℚ
  temperature_inc : ℚ
  debug_mode : Bool
  translate : Bool
  detect_language : Bool
  split_on_word : Bool
  no_fallback : Bool
  output_txt : Bool
  output_jsn : Bool
  output_jsn_full : Bool
  log_score : Bool
  use_gpu : Bool
  flash_attn : Bool
  language : String
  prompt : String
  model : String
  grammar : String
  grammar_rule : String
  tdrz_speaker_turn : String
  suppress_regex : String
  openvino_encode_device : String
  dtw : String
  grammar_parsed : parse_state
  deriving DecidableEq

open whisper_sampling_strategy whisper_alignment_heads_preset

/-- The value of `whisper_params params = {};`: every member at its default initializer. -/
def whisper_params.init (E : Engine) : whisper_params where
  n_threads := min 4 (E.hardware_concurrency : Int)
  n_processors := 1
  offset_t_ms := 0
  offset_n := 0
  duration_ms := 0
  progress_step := 5
  max_context := -1
  max_len := 0
  best_of := (E.whisper_full_default_params WHISPER_SAMPLING_GREEDY).greedy_best_of
  beam_size := (E.whisper_full_default_params WHISPER_SAMPLING_BEAM_SEARCH).beam_search_beam_size
  audio_ctx := 0
  word_thold := 1 / 100
  entropy_thold := 24 / 10
  logprob_thold := -1
  grammar_penalty := 100
  temperature := 0
  temperature_inc := 2 / 10
  debug_mode := false
  translate := false
  detect_language := false
  split_on_word := false
  no_fallback := false
  output_txt := false
  output_jsn := false
  output_jsn_full := false
  log_score := false
  use_gpu := true
  flash_attn := false
  language := "en"
  prompt := ""
  model := "models/ggml-base.en.bin"
  grammar := ""
  grammar_rule := ""
  tdrz_speaker_turn := "[SPEAKER_TURN]"
  suppress_regex := ""
  openvino_encode_device := "CPU"
  dtw := ""
  grammar_parsed := parse_state.empty

/-! ## `output_json` -/

/-- The loop of `output_json`, `for (int i = 0; i < n_segments; ++i) out += text + " "`,
with `remaining` (that is `n_segments - i`) iterations still to run. -/
def output_json_loop (ctx : whisper_context) : (remaining : Nat) → (i : Nat) → (out : String) →
    String
  | 0, _, out => out
  | remaining + 1, i, out =>
    let text := whisper_full_get_segment_text ctx i
    output_json_loop ctx remaining (i + 1) (out ++ (text ++ " "))

/-- The function `output_json(ctx, pcmf32s, full)`; the last two arguments are unused
in the source. -/
def output_json (ctx : whisper_context) (_pcmf32s : List (List F64)) ( _full : Bool) : String :=
  let out := ""
  let n_segments := whisper_full_n_segments ctx
  output_json_loop ctx n_segments 0 out

/-! ## `estimate_diarization_speaker` -/

/-- The loop of `estimate_diarization_speaker`,
`for (int64_t j = is0; j < is1; j++) { energy0 += fabs(pcmf32s[0][j]); energy1 += ... }`,
with `remaining = max(0, is1 - j)` iterations still to run and `(energy0, energy1)` so far.
An index outside a channel is undefined behaviour: `none`. -/
def energy_loop (ch0 ch1 : List F64) : (remaining : Nat) → (j : Int) → (energy0 energy1 : F64) →
    Option (F64 × F64)
  | 0, _, energy0, energy1 => some (energy0, energy1)
  | remaining + 1, j, energy0, energy1 =>
    if 0 ≤ j then
      match ch0[j.toNat]?, ch1[j.toNat]? with
      | some x0, some x1 =>
        energy_loop ch0 ch1 remaining (j + 1) (energy0.add x0.fabs) (energy1.add x1.fabs)
      | _, _ => none
    else none

/-- The decision of `estimate_diarization_speaker` on the two energies. -/
def speaker_of_energies (energy0 energy1 : F64) : String :=
  if energy0.gt (double_1_1.mul energy1) then "0"
  else if energy1.gt (double_1_1.mul energy0) then "1"
  else "?"

/-- The function `estimate_diarization_speaker(pcmf32s, t0, t1, id_only)`.
`timestamp_to_sample` (from `common.h`) and `WHISPER_SAMPLE_RATE` (from `whisper.h`)
are parameters.  Both energies start from `0.0f`. -/
def estimate_diarization_speaker (timestamp_to_sample : Int → Int → Int → Int)
    (WHISPER_SAMPLE_RATE : Int) (pcmf32s : List (List F64)) (t0 t1 : Int) (id_only : Bool) :
    Option String :=
  match pcmf32s[0]?, pcmf32s[1]? with
  | some ch0, some ch1 =>
    let n_samples : Int := ch0.length
    let is0 := timestamp_to_sample t0 n_samples WHISPER_SAMPLE_RATE
    let is1 := timestamp_to_sample t1 n_samples WHISPER_SAMPLE_RATE
    match energy_loop ch0 ch1 (is1 - is0).toNat is0 (.fin 0) (.fin 0) with
    | some (energy0, energy1) =>
      let speaker := speaker_of_energies energy0 energy1
      if !id_only then some ("(speaker " ++ speaker ++ ")") else some speaker
    | none => none
  | _, _ => none

/-! ## `init_model` -/

/-- The chain of `if (params.dtw == ...) cparams.dtw_aheads_preset = ...;` statements of
`init_model`, run in source order from `WHISPER_AHEADS_NONE`. -/
def dtw_aheads_preset_of (dtw : String) : whisper_alignment_heads_preset :=
  let p := WHISPER_AHEADS_NONE
  let p := if dtw == "tiny" then WHISPER_AHEADS_TINY else p
  let p := if dtw == "tiny.en" then WHISPER_AHEADS_TINY_EN else p
  let p := if dtw == "base" then WHISPER_AHEADS_BASE else p
  let p := if dtw == "base.en" then WHISPER_AHEADS_BASE_EN else p
  let p := if dtw == "small" then WHISPER_AHEADS_SMALL else p
  let p := if dtw == "small.en" then WHISPER_AHEADS_SMALL_EN else p
  let p := if dtw == "medium" then WHISPER_AHEADS_MEDIUM else p
  let p := if dtw == "medium.en" then WHISPER_AHEADS_MEDIUM_EN else p
  let p := if dtw == "large.v1" then WHISPER_AHEADS_LARGE_V1 else p
  let p := if dtw == "large.v2" then WHISPER_AHEADS_LARGE_V2 else p
  let p := if dtw == "large.v3" then WHISPER_AHEADS_LARGE_V3 else p
  let p := if dtw == "large.v3.turbo" then WHISPER_AHEADS_LARGE_V3_TURBO else p
  p

/-- The value `init_model` stores in its local `params.grammar_parsed` when
`params.grammar` is not empty: the parse of the file of that name when it exists, of
the string itself otherwise. -/
def init_model_grammar (E : Engine) (params : whisper_params) : parse_state :=
  if E.is_file_exist params.grammar then
    let txt := E.read_file params.grammar
    E.parse txt
  else
    E.parse params.grammar

/-- The body of `init_model` below the two assignments to `params`, as a function of the
local `params`.  The result is the returned pointer. -/
def init_model_body (E : Engine) (params : whisper_params) : Option whisper_context :=
  if params.language != "auto" && E.whisper_lang_id params.language == -1 then
    none
  else
    let cparams := E.whisper_context_default_params
    let cparams := { cparams with use_gpu := params.use_gpu }
    let cparams := { cparams with flash_attn := params.flash_attn }
    let dtw_checked : Option whisper_context_params :=
      if !params.dtw.isEmpty then
        let cparams := { cparams with dtw_token_timestamps := true }
        let cparams := { cparams with dtw_aheads_preset := dtw_aheads_preset_of params.dtw }
        if cparams.dtw_aheads_preset == WHISPER_AHEADS_NONE then none else some cparams
      else
        some cparams
    match dtw_checked with
    | none => none
    | some cparams =>
      match E.whisper_init_from_file_with_params params.model cparams with
      | none => none
      | some ctx =>
        let ctx := E.whisper_ctx_init_openvino_encoder ctx params.openvino_encode_device
        if !params.grammar.isEmpty then
          let grammar := init_model_grammar E params
          if grammar.rules.isEmpty then none else some ctx
        else
          some ctx

/-- The local `params` of `init_model(model_path, language)` after its two assignments. -/
def init_model_params (E : Engine) (model_path language : String) : whisper_params :=
  let params := whisper_params.init E
  let params := { params with model := model_path }
  let params := { params with language := language }
  params

/-- The function `init_model(model_path, language)`. -/
def init_model (E : Engine) (model_path language : String) : Option whisper_context :=
  init_model_body E (init_model_params E model_path language)

/-! ## `run_detection` -/

/-- The flag `use_grammar` of `run_detection`. -/
def use_grammar (params : whisper_params) : Bool :=
  !params.grammar_parsed.rules.isEmpty && !params.grammar_rule.isEmpty

/-- The decoding configuration `wparams` that `run_detection` builds from its local `params`
(the block "run the inference" up to the call of the engine). -/
def run_detection_wparams (E : Engine) (params : whisper_params) : whisper_full_params :=
  let wparams := E.whisper_full_default_params WHISPER_SAMPLING_GREEDY
  let use_grammar := use_grammar params
  let wparams := { wparams with
    strategy := if params.beam_size > 1 || use_grammar then WHISPER_SAMPLING_BEAM_SEARCH
                else WHISPER_SAMPLING_GREEDY }
  let wparams := { wparams with
    print_realtime := false
    translate := params.translate
    language := some params.language
    detect_language := params.detect_language
    n_threads := params.n_threads
    offset_ms := params.offset_t_ms
    duration_ms := params.duration_ms
    thold_pt := params.word_thold
    max_len := params.max_len
    split_on_word := params.split_on_word
    audio_ctx := params.audio_ctx
    debug_mode := params.debug_mode
    suppress_regex := if params.suppress_regex.isEmpty then none else some params.suppress_regex
    initial_prompt := some params.prompt
    greedy_best_of := params.best_of
    beam_search_beam_size := params.beam_size
    temperature := params.temperature
    entropy_thold := params.entropy_thold
    logprob_thold := params.logprob_thold }
  let grammar_parsed := params.grammar_parsed
  let grammar_rules := grammar_parsed.c_rules
  let wparams :=
    if use_grammar then
      match grammar_parsed.find params.grammar_rule with
      | none => wparams
      | some id =>
        { wparams with
          grammar_rules := some grammar_rules
          n_grammar_rules := grammar_rules.length
          i_start_rule := id
          grammar_penalty := params.grammar_penalty }
    else wparams
  let is_aborted := false
  let wparams := { wparams with encoder_begin_callback := some (!is_aborted) }
  let is_aborted := false
  let wparams := { wparams with abort_callback := some is_aborted }
  wparams

/-- The body of `run_detection` below the assignment to `params.language`, as a function of
the local `params`.  The result is the returned string and the context after the call;
`none` when a null `ctx` reaches the engine. -/
def run_detection_body (E : Engine) (params : whisper_params) (b64_in : String)
    (ctx : Option whisper_context) : Option (String × Option whisper_context) :=
  let buf := E.base64_decode b64_in
  match E.read_wav buf with
  | none => some ("", ctx)
  | some (pcmf32, pcmf32s) =>
    let wparams := run_detection_wparams E params
    match ctx with
    | none => none
    | some c =>
      let (status, c) := E.whisper_full_parallel c wparams pcmf32 params.n_processors
      if status != 0 then some ("", some c)
      else some (output_json c pcmf32s params.output_jsn_full, some c)

/-- The local `params` of `run_detection(b64_in, lang, ctx)` after its assignment. -/
def run_detection_params (E : Engine) (lang : String) : whisper_params :=
  let params := whisper_params.init E
  let params := { params with language := lang }
  params

/-- The function `run_detection(b64_in, lang, ctx)`. -/
def run_detection (E : Engine) (b64_in lang : String) (ctx : Option whisper_context) :
    Option (String × Option whisper_context) :=
  run_detection_body E (run_detection_params E lang) b64_in ctx

/-! ## The server: global state and the two handlers -/

/-- A parsed request body (`nlohmann::json`): JSON `null`, or an object whose members are
strings or `null` (`none`). -/
inductive Json where
  | null
  | object (members : List (String × Option String))
  deriving DecidableEq, Repr

/-- The test `json.is_null()`. -/
def Json.is_null : Json → Bool
  | .null => true
  | .object _ => false

/-- The member `json[key]`; `none` is JSON `null`, which is also what an absent key gives. -/
def Json.get : Json → String → Option String
  | .null, _ => none
  | .object members, key => (members.find? (fun kv => kv.1 == key)).bind Prod.snd

/-- The `httplib::Response` as the handlers set it; `status = none` is a status the handler
did not set. -/
structure Response where
  status : Option Nat
  body : String
  content_type : String
  deriving DecidableEq, Repr

/-- The response a handler starts from. -/
def Response.init : Response := { status := none, body := "", content_type := "" }

/-- The call `res.set_content(body, content_type)`. -/
def Response.set_content (res : Response) (body content_type : String) : Response :=
  { res with body := body, content_type := content_type }

/-- The process state: the global `ctx` and the addresses given to `whisper_free` so far. -/
structure State where
  ctx : Option whisper_context
  freed : List Nat
  deriving DecidableEq, Repr

/-- The handler of `POST /init_model`. -/
def handle_init_model (E : Engine) (s : State) (json : Json) : Response × State :=
  let res := Response.init
  if json.is_null then
    ((({ res with status := some 400 } : Response).set_content "Invalid json" "text/plain"), s)
  else if json.get "modelpath" == none then
    ((({ res with status := some 400 } : Response).set_content "Invalid model path" "text/plain"), s)
  else if json.get "lang" == none then
    ((({ res with status := some 400 } : Response).set_content "Invalid lang" "text/plain"), s)
  else
    let s : State :=
      match s.ctx with
      | some c => { s with freed := c.addr :: s.freed, ctx := none }
      | none => s
    let ctx := init_model E ((json.get "modelpath").getD "") ((json.get "lang").getD "")
    let s := { s with ctx := ctx }
    if s.ctx == none then
      ((({ res with status := some 500 } : Response).set_content
          "Could not initialize model. Maybe model path is wrong?" "text/plain"), s)
    else
      (res, s)

/-- The handler of `POST /run_detection`; `none` when a null `ctx` reaches the engine. -/
def handle_run_detection (E : Engine) (s : State) (json : Json) : Option (Response × State) :=
  let res := Response.init
  if json.is_null then
    some ((({ res with status := some 400 } : Response).set_content "Invalid json" "text/plain"), s)
  else if json.get "lang" == none then
    some ((({ res with status := some 400 } : Response).set_content "Invalid model path"
      "text/plain"), s)
  else if json.get "wavdata" == none then
    some ((({ res with status := some 400 } : Response).set_content "Invalid wavdata"
      "text/plain"), s)
  else
    match run_detection E ((json.get "wavdata").getD "") ((json.get "lang").getD "") s.ctx with
    | none => none
    | some (data, ctx) =>
      let s := { s with ctx := ctx }
      if data.length == 0 then
        some ((({ res with status := some 500 } : Response).set_content
          "Error occured while detecting speech" "text/plain"), s)
      else
        some (res.set_content data "plain/text", s)

/-! ## A test double of the engine

Concrete stand-ins for the external libraries, used to run the embedding on concrete
requests.  The values follow the documented behaviour of the libraries: the default
parameters of `whisper.h`, a language table with "en" and "de", one loadable model file,
one well-formed grammar text. -/

/-- Test double of `whisper_full_default_params(strategy)`. -/
def demo_full_default_params (strategy : whisper_sampling_strategy) : whisper_full_params where
  strategy := strategy
  print_realtime := false
  translate := false
  language := some "en"
  detect_language := false
  n_threads := 4
  offset_ms := 0
  duration_ms := 0
  thold_pt := 1 / 100
  max_len := 0
  split_on_word := false
  audio_ctx := 0
  debug_mode := false
  suppress_regex := none
  initial_prompt := none
  greedy_best_of := if strategy = WHISPER_SAMPLING_GREEDY then 5 else -1
  beam_search_beam_size := if strategy = WHISPER_SAMPLING_BEAM_SEARCH then 5 else -1
  temperature := 0
  entropy_thold := 24 / 10
  logprob_thold := -1
  grammar_rules := none
  n_grammar_rules := 0
  i_start_rule := 0
  grammar_penalty := 100
  encoder_begin_callback := none
  abort_callback := none

/-- Test double of the grammar parser: one grammar text is well formed, with the single rule
`root`; every other text fails to parse (empty state). -/
def demo_parse (txt : String) : parse_state :=
  if txt == "root ::= \"yes\"" then
    { symbol_ids := [("root", 0)], rules := [[⟨2, 121⟩, ⟨2, 101⟩, ⟨2, 115⟩, ⟨0, 0⟩]] }
  else
    parse_state.empty

/-- Test double of the engine and helper libraries.  The model file "models/a.bin" loads (at
address 1), no other does; the payload "silence" is a WAV of four zero samples, "speech" a WAV
of two non-zero samples, anything else is malformed; decoding always has status 0, with no
segment for four samples and two segments otherwise. -/
def demo_engine : Engine where
  hardware_concurrency := 8
  whisper_full_default_params := demo_full_default_params
  whisper_context_default_params :=
    { use_gpu := true, flash_attn := false, dtw_token_timestamps := false,
      dtw_aheads_preset := WHISPER_AHEADS_NONE }
  whisper_lang_id := fun l => if l == "en" then 0 else if l == "de" then 2 else -1
  whisper_init_from_file_with_params := fun path _ =>
    if path == "models/a.bin" then some { addr := 1, segments := [] } else none
  whisper_ctx_init_openvino_encoder := fun ctx _ => ctx
  is_file_exist := fun _ => false
  read_file := fun _ => ""
  parse := demo_parse
  base64_decode := fun b64 => b64
  read_wav := fun buf =>
    if buf == "silence" then some ([.fin 0, .fin 0, .fin 0, .fin 0], [])
    else if buf == "speech" then some ([.fin (1 / 2), .fin (-1 / 2)], [])
    else none
  whisper_full_parallel := fun ctx _ pcmf32 _ =>
    if pcmf32.length == 4 then (0, { ctx with segments := [] })
    else (0, { ctx with segments := [" hello", " world"] })

/-- The model of the test double, as loaded from "models/a.bin". -/
def demo_model_a : whisper_context := { addr := 1, segments := [] }

/-- A state of the server in which the model `demo_model_a` is active. -/
def demo_state_a : State := { ctx := some demo_model_a, freed := [] }

/-- A reconfigure request with a language code the engine does not know. -/
def demo_req_unknown_lang : Json :=
  .object [("modelpath", some "models/a.bin"), ("lang", some "xx")]

/-- A reconfigure request without the language field. -/
def demo_req_no_lang : Json :=
  .object [("modelpath", some "models/a.bin")]

/-- A transcribe request with silent audio. -/
def demo_req_silence : Json :=
  .object [("lang", some "en"), ("wavdata", some "silence")]

/-- A transcribe request with audible audio. -/
def demo_req_speech : Json :=
  .object [("lang", some "en"), ("wavdata", some "speech")]

/-- Local parameters of `init_model` with a grammar source that does not parse. -/
def demo_params_bad_grammar : whisper_params :=
  { init_model_params demo_engine "models/a.bin" "en" with grammar := "root = yes" }

/-- Local parameters of `run_detection` with a bound rule set and a start rule it lacks. -/
def demo_params_absent_rule : whisper_params :=
  { run_detection_params demo_engine "en" with
    grammar_parsed := demo_parse "root ::= \"yes\"", grammar_rule := "move" }

/-! ## Labels -/

/-- The label after exchanging the two channels, in the words of the specification:
"0" becomes "1", "1" becomes "0", "?" stays; likewise inside the annotation "(speaker _)". -/
def swap_label (speaker : String) : String :=
  if speaker = "0" then "1"
  else if speaker = "1" then "0"
  else if speaker = "(speaker 0)" then "(speaker 1)"
  else if speaker = "(speaker 1)" then "(speaker 0)"
  else speaker

/-- The energy of a channel over the window `[is0, is1)` as the program accumulates it: the
running double sum, from `0.0`, of the absolute values of the samples in index order. -/
def window_energy (ch : List F64) (is0 is1 : Int) : F64 :=
  ((ch.drop is0.toNat).take (is1 - is0).toNat).foldl (fun energy x => energy.add x.fabs) (.fin 0)

/-! ## Lemmas on strings -/

theorem join_cons_eq (a : String) (l : List String) : String.join (a :: l) = a ++ String.join l := by
  apply String.ext
  simp [String.join_eq, String.data_append]

theorem intercalate_go_space (l : List String) :
    ∀ acc : String,
      String.intercalate.go acc " " l ++ " " = acc ++ " " ++ String.join (l.map fun t => t ++ " ") := by
  induction l with
  | nil =>
    intro acc
    simp [String.intercalate.go, String.join]
  | cons a l ih =>
    intro acc
    rw [String.intercalate.go, ih, List.map_cons, join_cons_eq]
    simp only [String.append_assoc]

theorem output_json_loop_eq (addr : Nat) (rest : List String) :
    ∀ (pre : List String) (out : String),
      output_json_loop ⟨addr, pre ++ rest⟩ rest.length pre.length out
        = out ++ String.join (rest.map fun t => t ++ " ") := by
  induction rest with
  | nil =>
    intro pre out
    simp [output_json_loop, String.join]
  | cons t rest ih =>
    intro pre out
    have h := ih (pre ++ [t]) (out ++ (t ++ " "))
    simp only [List.append_assoc, List.singleton_append, List.length_append, List.length_singleton]
      at h
    simp only [List.length_cons, output_json_loop, whisper_full_get_segment_text, List.map_cons,
      join_cons_eq]
    rw [List.getD_eq_getElem?_getD, List.getElem?_append_right (le_refl _)]
    simp only [Nat.sub_self, List.getElem?_cons_zero, Option.getD_some]
    rw [h, String.append_assoc]

theorem output_json_eq_join (ctx : whisper_context) (pcmf32s : List (List F64)) (full : Bool) :
    output_json ctx pcmf32s full = String.join (ctx.segments.map fun t => t ++ " ") := by
  have h := output_json_loop_eq ctx.addr ctx.segments [] ""
  simp only [List.nil_append, List.length_nil, String.empty_append] at h
  simpa [output_json, whisper_full_n_segments] using h

/-! ## C4: the transcript -/

/-- C4 (as stated, refuted): for the two segments `"a"`, `"b"` the transcript of `output_json`
is `"a b "`, not the texts joined with single spaces, `"a b"`: a space follows the last text. -/
theorem C4_counterexample :
    output_json ⟨0, ["a", "b"]⟩ [] false = "a b " ∧
    output_json ⟨0, ["a", "b"]⟩ [] false ≠ " ".intercalate ["a", "b"] := by
  decide

/-- C4 (amended): the transcript of `output_json` is every segment text in emission order, each
followed by exactly one space; for at least one segment that is the texts joined with single
spaces plus one trailing space, for no segment the empty string. -/
theorem C4_output_json_texts_each_followed_by_space (ctx : whisper_context)
    (pcmf32s : List (List F64)) (full : Bool) :
    output_json ctx pcmf32s full = String.join (ctx.segments.map fun t => t ++ " ") ∧
    output_json ctx pcmf32s full =
      if ctx.segments = [] then "" else " ".intercalate ctx.segments ++ " " := by
  refine ⟨output_json_eq_join ctx pcmf32s full, ?_⟩
  rw [output_json_eq_join]
  cases h : ctx.segments with
  | nil => simp [String.join]
  | cons a l =>
    simp only [List.map_cons, join_cons_eq, String.intercalate, intercalate_go_space,
      String.append_assoc]
    simp

/-! ## Lemmas on binary64 rounding -/

theorem floor_le_round_half_even (x : ℚ) : ⌊x⌋ ≤ round_half_even x := by
  unfold round_half_even
  simp only
  split_ifs <;> omega

theorem round_half_even_le_floor_succ (x : ℚ) : round_half_even x ≤ ⌊x⌋ + 1 := by
  unfold round_half_even
  simp only
  split_ifs <;> omega

theorem round_half_even_intCast (j : ℤ) : round_half_even (j : ℚ) = j := by
  unfold round_half_even
  simp

theorem le_round_half_even {j : ℤ} {x : ℚ} (h : (j : ℚ) ≤ x) : j ≤ round_half_even x :=
  (Int.le_floor.2 h).trans (floor_le_round_half_even x)

theorem round_half_even_le {j : ℤ} {x : ℚ} (h : x ≤ (j : ℚ)) : round_half_even x ≤ j := by
  rcases h.eq_or_lt with h | h
  · rw [h, round_half_even_intCast]
  · have := Int.floor_lt.2 h
    have := round_half_even_le_floor_succ x
    omega

theorem round64_pos (a : ℚ) (ha : 0 < a) :
    round64 a =
      if (2 : ℚ) ^ 1024 ≤
          |(round_half_even (a / 2 ^ (max (Int.log 2 a) (-1022) - 52)) : ℚ) *
            2 ^ (max (Int.log 2 a) (-1022) - 52)|
      then .pinf
      else .fin ((round_half_even (a / 2 ^ (max (Int.log 2 a) (-1022) - 52)) : ℚ) *
            2 ^ (max (Int.log 2 a) (-1022) - 52)) := by
  simp [round64, ne_of_gt ha, abs_of_pos ha, ha]

/-- Facts about the scaled value in `round64` for a positive argument. -/
theorem round64_scaled (a : ℚ) (ha : 0 < a) (e : ℤ) (he : e = max (Int.log 2 a) (-1022)) :
    0 ≤ round_half_even (a / 2 ^ (e - 52)) ∧
    round_half_even (a / 2 ^ (e - 52)) ≤ 2 ^ 53 ∧
    (-1022 < e → 2 ^ 52 ≤ round_half_even (a / 2 ^ (e - 52))) := by
  have hu : (0 : ℚ) < 2 ^ (e - 52) := zpow_pos (by norm_num) _
  have h2 : (2 : ℚ) ≠ 0 := by norm_num
  refine ⟨?_, ?_, ?_⟩
  · apply le_round_half_even
    simpa using (div_pos ha hu).le
  · apply round_half_even_le
    have h1 : a < (2 : ℚ) ^ (Int.log 2 a + 1) := by
      simpa using Int.lt_zpow_succ_log_self (R := ℚ) (b := 2) (by norm_num) a
    have h3 : (2 : ℚ) ^ (Int.log 2 a + 1) ≤ 2 ^ (e + 1) :=
      zpow_le_zpow_right₀ (by norm_num) (by rw [he]; have := le_max_left (Int.log 2 a) (-1022); omega)
    have h4 : (2 : ℚ) ^ (e + 1) = 2 ^ (53 : ℕ) * 2 ^ (e - 52) := by
      rw [← zpow_natCast, ← zpow_add₀ h2]
      congr 1
      omega
    have hc : (((2 : ℤ) ^ 53 : ℤ) : ℚ) = 2 ^ (53 : ℕ) := by norm_num
    rw [div_le_iff₀ hu, hc, ← h4]
    exact (h1.trans_le h3).le
  · intro hlt
    have hL : e = Int.log 2 a := by
      rw [he] at hlt ⊢
      rcases max_cases (Int.log 2 a) (-1022) with ⟨h, _⟩ | ⟨h, _⟩
      · exact h
      · omega
    apply le_round_half_even
    have h1 : (2 : ℚ) ^ e ≤ a := by
      rw [hL]
      simpa using Int.zpow_log_le_self (R := ℚ) (b := 2) (by norm_num) ha
    have h4 : (2 : ℚ) ^ e = 2 ^ (52 : ℕ) * 2 ^ (e - 52) := by
      rw [← zpow_natCast, ← zpow_add₀ h2]
      congr 1
      omega
    have hc : (((2 : ℤ) ^ 52 : ℤ) : ℚ) = 2 ^ (52 : ℕ) := by norm_num
    rw [le_div_iff₀ hu, hc, ← h4]
    exact h1

theorem binary64_value_nonneg {x : ℚ} (hx : binary64_value x) : 0 ≤ x := by
  obtain ⟨k, ex, -, -, -, rfl⟩ := hx
  have : (0 : ℚ) < 2 ^ ex := zpow_pos (by norm_num) _
  positivity

theorem binary64_value_lt {x : ℚ} (hx : binary64_value x) : x < 2 ^ 1024 := by
  obtain ⟨k, ex, hk, -, h2, rfl⟩ := hx
  have hp : (0 : ℚ) < 2 ^ ex := zpow_pos (by norm_num) _
  have hk' : (k : ℚ) < 2 ^ (53 : ℕ) := by exact_mod_cast hk
  have h3 : (2 : ℚ) ^ ex ≤ 2 ^ (971 : ℤ) := zpow_le_zpow_right₀ (by norm_num) h2
  have h4 : (2 : ℚ) ^ (53 : ℕ) * 2 ^ (971 : ℤ) = 2 ^ 1024 := by
    rw [← zpow_natCast, ← zpow_add₀ (by norm_num)]
    norm_num
  calc (k : ℚ) * 2 ^ ex < 2 ^ (53 : ℕ) * 2 ^ ex := by
        exact mul_lt_mul_of_pos_right hk' hp
    _ ≤ 2 ^ (53 : ℕ) * 2 ^ (971 : ℤ) := by
        exact mul_le_mul_of_nonneg_left h3 (by positivity)
    _ = 2 ^ 1024 := h4

/-- A value `k * 2 ^ ex` on a grid at least as fine as `2 ^ (e - 52)` is an integer multiple. -/
theorem scaled_is_int (k : ℕ) (ex e : ℤ) (h : e - 52 ≤ ex) :
    ∃ j : ℤ, ((k : ℚ) * 2 ^ ex) / 2 ^ (e - 52) = (j : ℚ) := by
  refine ⟨(k : ℤ) * 2 ^ (ex - (e - 52)).toNat, ?_⟩
  have h2 : (2 : ℚ) ≠ 0 := by norm_num
  have hd : ((ex - (e - 52)).toNat : ℤ) = ex - (e - 52) := Int.toNat_of_nonneg (by omega)
  rw [mul_div_assoc, ← zpow_sub₀ h2, ← hd, zpow_natCast]
  push_cast
  rfl

/-- A value `k * 2 ^ ex` with `k < 2 ^ 53` on a grid finer than `2 ^ (e - 52)` is below `2 ^ e`. -/
theorem small_lt_zpow (k : ℕ) (ex e : ℤ) (hk : k < 2 ^ 53) (h : ex < e - 52) :
    (k : ℚ) * 2 ^ ex < 2 ^ e := by
  have hp : (0 : ℚ) < 2 ^ ex := zpow_pos (by norm_num) _
  have hk' : (k : ℚ) < 2 ^ (53 : ℕ) := by exact_mod_cast hk
  have h4 : (2 : ℚ) ^ (53 : ℕ) * 2 ^ ex = 2 ^ (53 + ex) := by
    rw [← zpow_natCast, ← zpow_add₀ (by norm_num)]
    norm_num
  calc (k : ℚ) * 2 ^ ex < 2 ^ (53 : ℕ) * 2 ^ ex := mul_lt_mul_of_pos_right hk' hp
    _ = 2 ^ (53 + ex) := h4
    _ ≤ 2 ^ e := zpow_le_zpow_right₀ (by norm_num) (by omega)

theorem zpow_eq_scaled (e : ℤ) : (2 : ℚ) ^ e = ((2 ^ 52 : ℤ) : ℚ) * 2 ^ (e - 52) := by
  have hc : (((2 : ℤ) ^ 52 : ℤ) : ℚ) = 2 ^ (52 : ℕ) := by norm_num
  rw [hc, ← zpow_natCast, ← zpow_add₀ (by norm_num)]
  congr 1
  omega

theorem round64_ge (x a : ℚ) (hx : binary64_value x) (h : x ≤ a) :
    round64 a = .pinf ∨ ∃ v, round64 a = .fin v ∧ x ≤ v := by
  have hx0 := binary64_value_nonneg hx
  rcases (hx0.trans h).eq_or_lt with ha | ha
  · right
    refine ⟨0, by simp [round64, ← ha], ?_⟩
    rw [ha]; exact h
  · rw [round64_pos a ha]
    split_ifs with hov
    · exact Or.inl rfl
    · right
      refine ⟨_, rfl, ?_⟩
      obtain ⟨k, ex, hk, h1, h2, rfl⟩ := hx
      set e := max (Int.log 2 a) (-1022) with he
      have hu : (0 : ℚ) < 2 ^ (e - 52) := zpow_pos (by norm_num) _
      obtain ⟨-, -, hbig⟩ := round64_scaled a ha e he
      by_cases hc : e - 52 ≤ ex
      · obtain ⟨j, hj⟩ := scaled_is_int k ex e hc
        have hjn : (j : ℚ) ≤ a / 2 ^ (e - 52) := by
          rw [← hj]
          exact div_le_div_of_nonneg_right h hu.le
        have hm := le_round_half_even hjn
        have hxe : (k : ℚ) * 2 ^ ex = (j : ℚ) * 2 ^ (e - 52) := by
          rw [← hj, div_mul_cancel₀ _ hu.ne']
        rw [hxe]
        exact mul_le_mul_of_nonneg_right (by exact_mod_cast hm) hu.le
      · have hlt : -1022 < e := by omega
        have hm := hbig hlt
        have hs := small_lt_zpow k ex e hk (by omega)
        rw [zpow_eq_scaled e] at hs
        refine hs.le.trans ?_
        exact mul_le_mul_of_nonneg_right (by exact_mod_cast hm) hu.le

theorem round64_le (x a : ℚ) (hx : binary64_value x) (h0 : 0 ≤ a) (h : a ≤ x) :
    ∃ v, round64 a = .fin v ∧ 0 ≤ v ∧ v ≤ x := by
  rcases h0.eq_or_lt with ha | ha
  · exact ⟨0, by simp [round64, ← ha], le_refl _, binary64_value_nonneg hx⟩
  · set e := max (Int.log 2 a) (-1022) with he
    have hu : (0 : ℚ) < 2 ^ (e - 52) := zpow_pos (by norm_num) _
    obtain ⟨hm0, -, hbig⟩ := round64_scaled a ha e he
    have hxlt := binary64_value_lt hx
    have hv0 : (0 : ℚ) ≤ (round_half_even (a / 2 ^ (e - 52)) : ℚ) * 2 ^ (e - 52) :=
      mul_nonneg (by exact_mod_cast hm0) hu.le
    have hvx : (round_half_even (a / 2 ^ (e - 52)) : ℚ) * 2 ^ (e - 52) ≤ x := by
      obtain ⟨k, ex, hk, h1, h2, rfl⟩ := hx
      by_cases hc : e - 52 ≤ ex
      · obtain ⟨j, hj⟩ := scaled_is_int k ex e hc
        have hjn : a / 2 ^ (e - 52) ≤ (j : ℚ) := by
          rw [← hj]
          exact div_le_div_of_nonneg_right h hu.le
        have hm := round_half_even_le hjn
        have hxe : (k : ℚ) * 2 ^ ex = (j : ℚ) * 2 ^ (e - 52) := by
          rw [← hj, div_mul_cancel₀ _ hu.ne']
        rw [hxe]
        exact mul_le_mul_of_nonneg_right (by exact_mod_cast hm) hu.le
      · exfalso
        have hlt : -1022 < e := by omega
        have hL : e = Int.log 2 a := by
          rcases max_cases (Int.log 2 a) (-1022) with ⟨h', _⟩ | ⟨h', _⟩
          · exact h'
          · omega
        have hle : (2 : ℚ) ^ e ≤ a := by
          rw [hL]
          simpa using Int.zpow_log_le_self (R := ℚ) (b := 2) (by norm_num) ha
        have hs := small_lt_zpow k ex e hk (by omega)
        linarith
    rw [round64_pos a ha, if_neg]
    · exact ⟨_, rfl, hv0, hvx⟩
    · rw [abs_of_nonneg hv0]
      push_neg
      exact lt_of_le_of_lt hvx hxlt

theorem round64_of_value (x : ℚ) (hx : binary64_value x) : round64 x = .fin x := by
  obtain ⟨v, hv, -, hle⟩ := round64_le x x hx (binary64_value_nonneg hx) le_rfl
  rcases round64_ge x x hx le_rfl with h | ⟨w, hw, hge⟩
  · rw [hv] at h; cases h
  · rw [hv] at hw
    cases hw
    rw [hv, le_antisymm hle hge]

theorem round64_value (a : ℚ) (h0 : 0 ≤ a) :
    round64 a = .pinf ∨ ∃ v, round64 a = .fin v ∧ binary64_value v := by
  rcases h0.eq_or_lt with ha | ha
  · right
    exact ⟨0, by simp [round64, ← ha], 0, 0, by norm_num, by norm_num, by norm_num, by simp⟩
  · rw [round64_pos a ha]
    split_ifs with hov
    · exact Or.inl rfl
    · right
      refine ⟨_, rfl, ?_⟩
      set e := max (Int.log 2 a) (-1022) with he
      have hu : (0 : ℚ) < 2 ^ (e - 52) := zpow_pos (by norm_num) _
      obtain ⟨hm0, hm53, hbig⟩ := round64_scaled a ha e he
      have hemin : -1022 ≤ e := le_max_right _ _
      set m := round_half_even (a / 2 ^ (e - 52)) with hm
      have hv0 : (0 : ℚ) ≤ (m : ℚ) * 2 ^ (e - 52) := mul_nonneg (by exact_mod_cast hm0) hu.le
      rw [abs_of_nonneg hv0] at hov
      push_neg at hov
      -- the exponent is at most 1023
      have he1023 : e ≤ 1023 := by
        by_contra hcon
        push_neg at hcon
        have h52 := hbig (by omega)
        have h1 : (2 : ℚ) ^ e ≤ (m : ℚ) * 2 ^ (e - 52) := by
          rw [zpow_eq_scaled e]
          exact mul_le_mul_of_nonneg_right (by exact_mod_cast h52) hu.le
        have h2 : (2 : ℚ) ^ (1024 : ℤ) ≤ 2 ^ e := zpow_le_zpow_right₀ (by norm_num) (by omega)
        have h3 : (2 : ℚ) ^ (1024 : ℤ) = 2 ^ 1024 := by norm_num
        linarith
      rcases hm53.eq_or_lt with h53 | h53
      · -- the significand rounded up to `2 ^ 53`
        have hval : (m : ℚ) * 2 ^ (e - 52) = 2 ^ (e + 1) := by
          rw [h53]
          have hc : (((2 : ℤ) ^ 53 : ℤ) : ℚ) = 2 ^ (53 : ℕ) := by norm_num
          rw [hc, ← zpow_natCast, ← zpow_add₀ (by norm_num)]
          congr 1
          omega
        have he1022 : e ≤ 1022 := by
          by_contra hcon
          push_neg at hcon
          have h2 : (2 : ℚ) ^ (1024 : ℤ) ≤ 2 ^ (e + 1) :=
            zpow_le_zpow_right₀ (by norm_num) (by omega)
          have h3 : (2 : ℚ) ^ (1024 : ℤ) = 2 ^ 1024 := by norm_num
          rw [hval] at hov
          linarith
        refine ⟨2 ^ 52, e - 51, by norm_num, by omega, by omega, ?_⟩
        rw [hval]
        have hc : ((2 ^ 52 : ℕ) : ℚ) = 2 ^ (52 : ℕ) := by norm_num
        rw [hc, ← zpow_natCast, ← zpow_add₀ (by norm_num)]
        congr 1
        omega
      · refine ⟨m.toNat, e - 52, ?_, by omega, by omega, ?_⟩
        · have : (m.toNat : ℤ) = m := Int.toNat_of_nonneg hm0
          omega
        · have : ((m.toNat : ℤ) : ℚ) = (m : ℚ) := by rw [Int.toNat_of_nonneg hm0]
          rw [← this]
          push_cast
          rfl

theorem int_log_two_eq (a : ℚ) (e : ℤ) (ha : 0 < a) (h1 : (2 : ℚ) ^ e ≤ a)
    (h2 : a < (2 : ℚ) ^ (e + 1)) : Int.log 2 a = e := by
  have l1 : e ≤ Int.log 2 a :=
    (Int.zpow_le_iff_le_log (R := ℚ) (b := 2) (by norm_num) ha).1 (by simpa using h1)
  have l2 : Int.log 2 a < e + 1 :=
    (Int.lt_zpow_iff_log_lt (R := ℚ) (b := 2) (by norm_num) ha).1 (by simpa using h2)
  omega

theorem round64_product_110 :
    round64 (2476979795053773 / 2251799813685248 * 100) = .fin (110 + 1 / 70368744177664) := by
  have ha : (0 : ℚ) < 2476979795053773 / 2251799813685248 * 100 := by norm_num
  have hL : Int.log 2 ((2476979795053773 : ℚ) / 2251799813685248 * 100) = 6 :=
    int_log_two_eq _ 6 ha (by norm_num) (by norm_num)
  have hfl : ⌊(2476979795053773 : ℚ) / 2251799813685248 * 100 / 2 ^ ((6 : ℤ) - 52)⌋
      = 7740561859543040 := by
    rw [Int.floor_eq_iff]
    constructor <;> norm_num
  rw [round64_pos _ ha, hL]
  have hmax : max (6 : ℤ) (-1022) = 6 := by decide
  rw [hmax]
  have hr : round_half_even ((2476979795053773 : ℚ) / 2251799813685248 * 100 / 2 ^ ((6 : ℤ) - 52))
      = 7740561859543041 := by
    unfold round_half_even
    simp only [hfl]
    norm_num
  rw [hr, if_neg]
  · norm_num
  · rw [abs_of_nonneg (by norm_num)]
    norm_num

theorem double_1_1_eq : double_1_1 = .fin (2476979795053773 / 2251799813685248) := by
  have ha : (0 : ℚ) < 11 / 10 := by norm_num
  have hL : Int.log 2 ((11 : ℚ) / 10) = 0 := int_log_two_eq _ 0 ha (by norm_num) (by norm_num)
  have hfl : ⌊(11 : ℚ) / 10 / 2 ^ ((0 : ℤ) - 52)⌋ = 4953959590107545 := by
    rw [Int.floor_eq_iff]
    constructor <;> norm_num
  have hmax : max (0 : ℤ) (-1022) = 0 := by decide
  have hr : round_half_even ((11 : ℚ) / 10 / 2 ^ ((0 : ℤ) - 52)) = 4953959590107546 := by
    unfold round_half_even
    simp only [hfl]
    norm_num
  rw [double_1_1, round64_pos _ ha, hL, hmax, hr, if_neg]
  · norm_num
  · rw [abs_of_nonneg (by norm_num)]
    norm_num

/-! ## Lemmas on the energy loop -/

theorem energy_loop_eq (ch0 ch1 : List F64) :
    ∀ (k n : Nat) (e0 e1 : F64), n + k ≤ ch0.length → n + k ≤ ch1.length →
      energy_loop ch0 ch1 k (n : Int) e0 e1 =
        some (((ch0.drop n).take k).foldl (fun energy x => energy.add x.fabs) e0,
              ((ch1.drop n).take k).foldl (fun energy x => energy.add x.fabs) e1) := by
  intro k
  induction k with
  | zero =>
    intro n e0 e1 _ _
    simp [energy_loop]
  | succ k ih =>
    intro n e0 e1 h0 h1
    have hn0 : n < ch0.length := by omega
    have hn1 : n < ch1.length := by omega
    have hc : ((n : Int) + 1) = ((n + 1 : Nat) : Int) := by push_cast; rfl
    rw [energy_loop]
    simp only [Int.natCast_nonneg, if_true, Int.toNat_ofNat,
      List.getElem?_eq_getElem hn0, List.getElem?_eq_getElem hn1]
    rw [hc, ih (n + 1) _ _ (by omega) (by omega), List.drop_eq_getElem_cons hn0,
      List.drop_eq_getElem_cons hn1, List.take_succ_cons, List.take_succ_cons, List.foldl_cons,
      List.foldl_cons]

theorem energy_loop_window (ch0 ch1 : List F64) (is0 is1 : Int) (h0 : 0 ≤ is0)
    (h1 : is1 ≤ ch0.length) (h2 : is1 ≤ ch1.length) :
    energy_loop ch0 ch1 (is1 - is0).toNat is0 (.fin 0) (.fin 0) =
      some (window_energy ch0 is0 is1, window_energy ch1 is0 is1) := by
  unfold window_energy
  by_cases hw : is1 ≤ is0
  · have hk : (is1 - is0).toNat = 0 := by omega
    simp [hk, energy_loop]
  · have hn : ((is0.toNat : Nat) : Int) = is0 := Int.toNat_of_nonneg h0
    have h := energy_loop_eq ch0 ch1 (is1 - is0).toNat is0.toNat (.fin 0) (.fin 0)
      (by omega) (by omega)
    rw [hn] at h
    exact h

theorem energy_loop_swap (ch0 ch1 : List F64) :
    ∀ (k : Nat) (j : Int) (e0 e1 : F64),
      energy_loop ch1 ch0 k j e1 e0 = (energy_loop ch0 ch1 k j e0 e1).map Prod.swap := by
  intro k
  induction k with
  | zero => intro j e0 e1; simp [energy_loop]
  | succ k ih =>
    intro j e0 e1
    rw [energy_loop, energy_loop]
    by_cases hj : 0 ≤ j
    · simp only [hj, if_true]
      cases h0 : ch0[j.toNat]? <;> cases h1 : ch1[j.toNat]? <;> simp [ih]
    · simp [hj]

theorem is_energy_add_fabs (e x : F64) (he : e.is_energy) : (e.add x.fabs).is_energy := by
  cases e with
  | nan => cases x <;> simp [F64.add, F64.fabs, F64.is_energy]
  | pinf => cases x <;> simp [F64.add, F64.fabs, F64.is_energy]
  | ninf => exact absurd he (by simp [F64.is_energy])
  | fin a =>
    cases x with
    | nan => simp [F64.add, F64.fabs, F64.is_energy]
    | pinf => simp [F64.add, F64.fabs, F64.is_energy]
    | ninf => simp [F64.add, F64.fabs, F64.is_energy]
    | fin q =>
      have ha : 0 ≤ a := binary64_value_nonneg he
      simp only [F64.add, F64.fabs]
      rcases round64_value (a + |q|) (add_nonneg ha (abs_nonneg q)) with h | ⟨v, h, hv⟩
      · rw [h]; trivial
      · rw [h]; exact hv

theorem energy_loop_is_energy (ch0 ch1 : List F64) :
    ∀ (k : Nat) (j : Int) (e0 e1 r0 r1 : F64), e0.is_energy → e1.is_energy →
      energy_loop ch0 ch1 k j e0 e1 = some (r0, r1) → r0.is_energy ∧ r1.is_energy := by
  intro k
  induction k with
  | zero =>
    intro j e0 e1 r0 r1 h0 h1 h
    simp only [energy_loop, Option.some.injEq, Prod.mk.injEq] at h
    exact ⟨h.1 ▸ h0, h.2 ▸ h1⟩
  | succ k ih =>
    intro j e0 e1 r0 r1 h0 h1 h
    rw [energy_loop] at h
    by_cases hj : 0 ≤ j
    · simp only [hj, if_true] at h
      cases hx0 : ch0[j.toNat]? with
      | none => simp [hx0] at h
      | some x0 =>
        cases hx1 : ch1[j.toNat]? with
        | none => simp [hx0, hx1] at h
        | some x1 =>
          simp only [hx0, hx1] at h
          exact ih _ _ _ _ _ (is_energy_add_fabs e0 x0 h0) (is_energy_add_fabs e1 x1 h1) h
    · simp [hj] at h

theorem is_energy_zero : (F64.fin 0).is_energy :=
  ⟨0, 0, by norm_num, by norm_num, by norm_num, by simp⟩

/-- The product `1.1 * energy` is not below a finite double energy. -/
theorem mul_1_1_ge (b : ℚ) (hb : binary64_value b) :
    double_1_1.mul (.fin b) = .pinf ∨ ∃ v, double_1_1.mul (.fin b) = .fin v ∧ b ≤ v := by
  have hb0 := binary64_value_nonneg hb
  rw [double_1_1_eq]
  simp only [F64.mul]
  apply round64_ge b _ hb
  have : (1 : ℚ) ≤ 2476979795053773 / 2251799813685248 := by norm_num
  nlinarith

theorem gt_mul_1_1 (a b : ℚ) (hb : binary64_value b)
    (h : (F64.fin a).gt (double_1_1.mul (.fin b)) = true) : b < a := by
  rcases mul_1_1_ge b hb with h1 | ⟨v, h1, hv⟩
  · rw [h1] at h; simp [F64.gt] at h
  · rw [h1] at h
    simp only [F64.gt, decide_eq_true_eq] at h
    exact lt_of_le_of_lt hv h

/-- The two tests of the decision never hold together on energies. -/
theorem energies_exclusive (e0 e1 : F64) (h0 : e0.is_energy) (h1 : e1.is_energy) :
    ¬ (e0.gt (double_1_1.mul e1) = true ∧ e1.gt (double_1_1.mul e0) = true) := by
  rintro ⟨a, b⟩
  cases e0 with
  | nan => simp [F64.gt] at a
  | ninf => exact h0
  | pinf =>
    cases e1 <;> simp [F64.gt, F64.mul, double_1_1_eq] at b
  | fin x =>
    cases e1 with
    | nan => simp [F64.gt, F64.mul, double_1_1_eq] at a
    | ninf => exact h1
    | pinf => simp [F64.gt, F64.mul, double_1_1_eq] at a
    | fin y =>
      have := gt_mul_1_1 x y h1 a
      have := gt_mul_1_1 y x h0 b
      linarith

theorem speaker_of_energies_swap (e0 e1 : F64) (h0 : e0.is_energy) (h1 : e1.is_energy) :
    speaker_of_energies e1 e0 = swap_label (speaker_of_energies e0 e1) := by
  have hex := energies_exclusive e0 e1 h0 h1
  unfold speaker_of_energies
  by_cases a : e0.gt (double_1_1.mul e1) = true
  · have b : ¬ e1.gt (double_1_1.mul e0) = true := fun b => hex ⟨a, b⟩
    simp only [a, b, if_true, if_false]
    decide
  · by_cases b : e1.gt (double_1_1.mul e0) = true
    · simp only [a, b, if_true, if_false]
      decide
    · simp only [a, b, if_false]
      decide

theorem estimate_of_window (timestamp_to_sample : Int → Int → Int → Int)
    (rate : Int) (ch0 ch1 : List F64) (t0 t1 : Int)
    (h0 : 0 ≤ timestamp_to_sample t0 ch0.length rate)
    (h1 : timestamp_to_sample t1 ch0.length rate ≤ ch0.length)
    (h2 : timestamp_to_sample t1 ch0.length rate ≤ ch1.length) :
    estimate_diarization_speaker timestamp_to_sample rate [ch0, ch1] t0 t1 true =
      some (speaker_of_energies
        (window_energy ch0 (timestamp_to_sample t0 ch0.length rate)
          (timestamp_to_sample t1 ch0.length rate))
        (window_energy ch1 (timestamp_to_sample t0 ch0.length rate)
          (timestamp_to_sample t1 ch0.length rate))) := by
  have hr := energy_loop_window ch0 ch1 _ _ h0 h1 h2
  simp [estimate_diarization_speaker, hr]

theorem binary64_value_natCast (n : ℕ) (h : n < 2 ^ 53) : binary64_value (n : ℚ) :=
  ⟨n, 0, h, by norm_num, by norm_num, by simp⟩

theorem foldl_is_energy (l : List F64) :
    ∀ e : F64, e.is_energy → (l.foldl (fun energy x => energy.add x.fabs) e).is_energy := by
  induction l with
  | nil => intro e he; exact he
  | cons x l ih => intro e he; exact ih _ (is_energy_add_fabs e x he)

theorem window_energy_is_energy (ch : List F64) (is0 is1 : Int) :
    (window_energy ch is0 is1).is_energy :=
  foldl_is_energy _ _ is_energy_zero

theorem foldl_silent (l : List F64) (h : ∀ x ∈ l, x = F64.fin 0) :
    l.foldl (fun (energy x : F64) => energy.add x.fabs) (F64.fin 0) = F64.fin 0 := by
  induction l with
  | nil => rfl
  | cons x l ih =>
    have hx : x = F64.fin 0 := h x (List.mem_cons_self _ _)
    have hstep : (F64.fin 0).add (F64.fin 0).fabs = .fin 0 := by
      simp [F64.add, F64.fabs, round64]
    rw [List.foldl_cons, hx, hstep]
    exact ih (fun y hy => h y (List.mem_cons_of_mem _ hy))

theorem window_energy_silent (ch : List F64) (is0 is1 : Int) (h0 : 0 ≤ is0)
    (h : ∀ j : Nat, is0.toNat ≤ j → j < is1.toNat → j < ch.length → ch[j]? = some (.fin 0)) :
    window_energy ch is0 is1 = .fin 0 := by
  apply foldl_silent
  intro x hx
  obtain ⟨i, hi, rfl⟩ := List.mem_iff_getElem.1 hx
  have hi' := hi
  rw [List.length_take, List.length_drop] at hi'
  have hb : is0.toNat + i < ch.length := by omega
  have := h (is0.toNat + i) (by omega) (by omega) hb
  rw [List.getElem?_eq_getElem hb] at this
  rw [List.getElem_take, List.getElem_drop]
  exact Option.some.inj this

theorem speaker_silent : speaker_of_energies (.fin 0) (.fin 0) = "?" := by
  simp [speaker_of_energies, double_1_1_eq, F64.mul, F64.gt, round64]

theorem gt_100_mul_80 : (F64.fin 100).gt (double_1_1.mul (.fin 80)) = true := by
  obtain ⟨v, hv, -, hle⟩ := round64_le 89 (2476979795053773 / 2251799813685248 * 80)
    (binary64_value_natCast 89 (by norm_num)) (by norm_num) (by norm_num)
  rw [double_1_1_eq]
  simp only [F64.mul, hv, F64.gt, decide_eq_true_eq]
  linarith

theorem not_gt_of_le_mul (a b x : ℚ) (hx : binary64_value x) (hab : a ≤ x)
    (hxb : x ≤ 2476979795053773 / 2251799813685248 * b) :
    (F64.fin a).gt (double_1_1.mul (.fin b)) = false := by
  rw [double_1_1_eq]
  simp only [F64.mul]
  rcases round64_ge x _ hx hxb with h | ⟨v, h, hv⟩
  · rw [h]; rfl
  · rw [h]
    simp only [F64.gt, decide_eq_false_iff_not, not_lt]
    linarith

theorem speaker_100_80 : speaker_of_energies (.fin 100) (.fin 80) = "0" := by
  simp [speaker_of_energies, gt_100_mul_80]

theorem speaker_80_100 : speaker_of_energies (.fin 80) (.fin 100) = "1" := by
  have h := not_gt_of_le_mul 80 100 100 (binary64_value_natCast 100 (by norm_num))
    (by norm_num) (by norm_num)
  simp [speaker_of_energies, gt_100_mul_80, h]

theorem speaker_100_95 : speaker_of_energies (.fin 100) (.fin 95) = "?" := by
  have h1 := not_gt_of_le_mul 100 95 104 (binary64_value_natCast 104 (by norm_num))
    (by norm_num) (by norm_num)
  have h2 := not_gt_of_le_mul 95 100 100 (binary64_value_natCast 100 (by norm_num))
    (by norm_num) (by norm_num)
  simp [speaker_of_energies, h1, h2]

/-! ## C7: the diarization rule -/

/-- C7 (as stated, refuted): the samples `110`, `2 ^ -46` (channel 0) and `100`, `0`
(channel 1) are `float` values; over the window `[0, 2)` the exact sums of their absolute values
are `110 + 2 ^ -46` and `100`, and the first exceeds 1.1 times the second, whether 1.1 is read
as 11/10 or as the double literal, so the claim gives "0".  The program answers "?": the
double product `1.1 * 100` rounds up to `110 + 2 ^ -46`, which the first energy does not exceed. -/
theorem C7_counterexample :
    (∀ x ∈ [(110 : ℚ), 1 / 70368744177664, 100, 0], binary32_value x) ∧
    |(110 : ℚ)| + |1 / 70368744177664| > 11 / 10 * (|100| + |0|) ∧
    |(110 : ℚ)| + |1 / 70368744177664| >
      2476979795053773 / 2251799813685248 * (|100| + |0|) ∧
    estimate_diarization_speaker (fun t _ _ => t) 16000
      [[.fin 110, .fin (1 / 70368744177664)], [.fin 100, .fin 0]] 0 2 true = some "?" := by
  refine ⟨?_, by norm_num [abs_of_pos], by norm_num [abs_of_pos], ?_⟩
  · intro x hx
    simp only [List.mem_cons, List.mem_singleton, List.not_mem_nil, or_false] at hx
    rcases hx with rfl | rfl | rfl | rfl
    · exact ⟨110, 0, by norm_num, by norm_num, by norm_num, by norm_num [abs_of_pos]⟩
    · exact ⟨1, -46, by norm_num, by norm_num, by norm_num, by norm_num [abs_of_pos]⟩
    · exact ⟨100, 0, by norm_num, by norm_num, by norm_num, by norm_num [abs_of_pos]⟩
    · exact ⟨0, 0, by norm_num, by norm_num, by norm_num, by norm_num⟩
  · have r110 : round64 110 = .fin 110 :=
      round64_of_value 110 (binary64_value_natCast 110 (by norm_num))
    have r100 : round64 100 = .fin 100 :=
      round64_of_value 100 (binary64_value_natCast 100 (by norm_num))
    have rsum : round64 (110 + 1 / 70368744177664) = .fin (110 + 1 / 70368744177664) :=
      round64_of_value _ ⟨7740561859543041, -46, by norm_num, by norm_num, by norm_num,
        by norm_num⟩
    have e0 : window_energy [.fin 110, .fin (1 / 70368744177664)] 0 2
        = .fin (110 + 1 / 70368744177664) := by
      have h : window_energy [.fin 110, .fin (1 / 70368744177664)] 0 2
          = (round64 (0 + |110|)).add (.fin |1 / 70368744177664|) := rfl
      rw [h, abs_of_pos (by norm_num), zero_add, r110, abs_of_pos (by norm_num)]
      exact rsum
    have e1 : window_energy [.fin 100, .fin 0] 0 2 = .fin 100 := by
      have h : window_energy [.fin 100, .fin 0] 0 2 = (round64 (0 + |100|)).add (.fin |0|) := rfl
      rw [h, abs_of_pos (by norm_num), zero_add, r100, abs_zero]
      show round64 (100 + 0) = _
      rw [add_zero, r100]
    have hw := estimate_of_window (fun t _ _ => t) 16000
      [.fin 110, .fin (1 / 70368744177664)] [.fin 100, .fin 0] 0 2
      (by decide) (by decide) (by decide)
    have g1 : (F64.fin (110 + 1 / 70368744177664)).gt (double_1_1.mul (.fin 100)) = false := by
      have hm : double_1_1.mul (.fin 100) = .fin (110 + 1 / 70368744177664) := by
        rw [double_1_1_eq]
        exact round64_product_110
      rw [hm]
      simp only [F64.gt, lt_self_iff_false, decide_False]
    have g2 : (F64.fin 100).gt (double_1_1.mul (.fin (110 + 1 / 70368744177664))) = false :=
      not_gt_of_le_mul 100 _ 110 (binary64_value_natCast 110 (by norm_num))
        (by norm_num) (by norm_num)
    rw [hw]
    show some (speaker_of_energies (window_energy _ 0 2) (window_energy _ 0 2)) = _
    rw [e0, e1, speaker_of_energies, g1, g2]
    rfl

/-- C7 (amended): with both channels read inside their bounds over the window `[is0, is1)`, and
`energy0`, `energy1` the double-precision running sums of the absolute sample values of
channel 0 and channel 1 over it, `estimate_diarization_speaker` with `id_only` answers "0" when
`energy0` exceeds the double product `1.1 * energy1`, otherwise "1" when `energy1` exceeds the
double product `1.1 * energy0`, otherwise "?"; energies (100, 80) give "0", (80, 100) give "1"
and (100, 95) give "?". -/
theorem C7_rule_on_double_energies (timestamp_to_sample : Int → Int → Int → Int)
    (rate : Int) (ch0 ch1 : List F64) (t0 t1 : Int)
    (h0 : 0 ≤ timestamp_to_sample t0 ch0.length rate)
    (h1 : timestamp_to_sample t1 ch0.length rate ≤ ch0.length)
    (h2 : timestamp_to_sample t1 ch0.length rate ≤ ch1.length) :
    ∃ energy0 energy1 : F64,
      energy0 = window_energy ch0 (timestamp_to_sample t0 ch0.length rate)
        (timestamp_to_sample t1 ch0.length rate) ∧
      energy1 = window_energy ch1 (timestamp_to_sample t0 ch0.length rate)
        (timestamp_to_sample t1 ch0.length rate) ∧
      estimate_diarization_speaker timestamp_to_sample rate [ch0, ch1] t0 t1 true =
        some (if energy0.gt (double_1_1.mul energy1) = true then "0"
              else if energy1.gt (double_1_1.mul energy0) = true then "1" else "?") ∧
      (energy0 = .fin 100 ∧ energy1 = .fin 80 →
        estimate_diarization_speaker timestamp_to_sample rate [ch0, ch1] t0 t1 true = some "0") ∧
      (energy0 = .fin 80 ∧ energy1 = .fin 100 →
        estimate_diarization_speaker timestamp_to_sample rate [ch0, ch1] t0 t1 true = some "1") ∧
      (energy0 = .fin 100 ∧ energy1 = .fin 95 →
        estimate_diarization_speaker timestamp_to_sample rate [ch0, ch1] t0 t1 true = some "?") := by
  have main := estimate_of_window timestamp_to_sample rate ch0 ch1 t0 t1 h0 h1 h2
  refine ⟨_, _, rfl, rfl, ?_, ?_, ?_, ?_⟩
  · rw [main]; rfl
  · rintro ⟨a, b⟩
    rw [main, a, b, speaker_100_80]
  · rintro ⟨a, b⟩
    rw [main, a, b, speaker_80_100]
  · rintro ⟨a, b⟩
    rw [main, a, b, speaker_100_95]

/-- Witness of C7: channels `[60, -40]` and `[50, 30]` over the window `[0, 2)` have energies
100 and 80, and the label is "0". -/
theorem C7_witness :
    estimate_diarization_speaker (fun t _ _ => t) 16000
      [[.fin 60, .fin (-40)], [.fin 50, .fin 30]] 0 2 true = some "0" := by
  obtain ⟨e0, e1, he0, he1, -, h, -, -⟩ :=
    C7_rule_on_double_energies (fun t _ _ => t) 16000 [.fin 60, .fin (-40)]
      [.fin 50, .fin 30] 0 2 (by decide) (by decide) (by decide)
  apply h
  have r60 : round64 60 = .fin 60 := round64_of_value 60 (binary64_value_natCast 60 (by norm_num))
  have r100 : round64 100 = .fin 100 :=
    round64_of_value 100 (binary64_value_natCast 100 (by norm_num))
  have r50 : round64 50 = .fin 50 := round64_of_value 50 (binary64_value_natCast 50 (by norm_num))
  have r80 : round64 80 = .fin 80 := round64_of_value 80 (binary64_value_natCast 80 (by norm_num))
  constructor
  · have h : window_energy [.fin 60, .fin (-40)] 0 2 = (round64 (0 + |60|)).add (.fin |(-40)|) :=
      rfl
    rw [he0, h, abs_of_pos (by norm_num), zero_add, r60, abs_neg, abs_of_pos (by norm_num)]
    show round64 (60 + 40) = _
    norm_num [r100]
  · have h : window_energy [.fin 50, .fin 30] 0 2 = (round64 (0 + |50|)).add (.fin |30|) := rfl
    rw [he1, h, abs_of_pos (by norm_num), zero_add, r50, abs_of_pos (by norm_num)]
    show round64 (50 + 30) = _
    norm_num [r80]

/-! ## C10: exchanging the channels -/

theorem speaker_of_energies_cases (e0 e1 : F64) :
    speaker_of_energies e0 e1 = "0" ∨ speaker_of_energies e0 e1 = "1" ∨
      speaker_of_energies e0 e1 = "?" := by
  unfold speaker_of_energies
  split_ifs <;> simp

theorem annotate_swap (e0 e1 : F64) :
    "(speaker " ++ swap_label (speaker_of_energies e0 e1) ++ ")" =
      swap_label ("(speaker " ++ speaker_of_energies e0 e1 ++ ")") := by
  rcases speaker_of_energies_cases e0 e1 with h | h | h <;> rw [h] <;> decide

theorem estimate_swap (timestamp_to_sample : Int → Int → Int → Int) (rate : Int)
    (ch0 ch1 : List F64) (t0 t1 : Int) (hlen : ch0.length = ch1.length) (id_only : Bool) :
    estimate_diarization_speaker timestamp_to_sample rate [ch1, ch0] t0 t1 id_only =
      (estimate_diarization_speaker timestamp_to_sample rate [ch0, ch1] t0 t1 id_only).map
        swap_label := by
  simp only [estimate_diarization_speaker, List.getElem?_cons_zero, List.getElem?_cons_succ,
    ← hlen]
  rw [energy_loop_swap ch0 ch1]
  cases hr : energy_loop ch0 ch1
      (timestamp_to_sample t1 ch0.length rate - timestamp_to_sample t0 ch0.length rate).toNat
      (timestamp_to_sample t0 ch0.length rate) (.fin 0) (.fin 0) with
  | none => simp
  | some r =>
    obtain ⟨e0, e1⟩ := r
    have hn := energy_loop_is_energy ch0 ch1 _ _ _ _ e0 e1 is_energy_zero is_energy_zero hr
    have hs := speaker_of_energies_swap e0 e1 hn.1 hn.2
    cases id_only
    · simp [hs, annotate_swap]
    · simp [hs]

/-- C10: for channels of equal length, exchanging them in `estimate_diarization_speaker`
exchanges the label ("0" and "1" trade places, "?" stays; an undefined read stays undefined).
On the energies the program computes, the two tests `energy0 > 1.1 * energy1` and
`energy1 > 1.1 * energy0` never hold together, so testing them in the other order gives the
same label, and an empty window or a window of silent samples gives "?". -/
theorem C10_channel_swap_swaps_label (timestamp_to_sample : Int → Int → Int → Int) (rate : Int)
    (ch0 ch1 : List F64) (t0 t1 : Int) (hlen : ch0.length = ch1.length) :
    (∀ id_only : Bool,
      estimate_diarization_speaker timestamp_to_sample rate [ch1, ch0] t0 t1 id_only =
        (estimate_diarization_speaker timestamp_to_sample rate [ch0, ch1] t0 t1 id_only).map
          swap_label) ∧
    (∀ energy0 energy1 : F64,
      energy0 = window_energy ch0 (timestamp_to_sample t0 ch0.length rate)
        (timestamp_to_sample t1 ch0.length rate) →
      energy1 = window_energy ch1 (timestamp_to_sample t0 ch0.length rate)
        (timestamp_to_sample t1 ch0.length rate) →
      ¬ (energy0.gt (double_1_1.mul energy1) = true ∧
          energy1.gt (double_1_1.mul energy0) = true) ∧
      (0 ≤ timestamp_to_sample t0 ch0.length rate →
        timestamp_to_sample t1 ch0.length rate ≤ ch0.length →
        estimate_diarization_speaker timestamp_to_sample rate [ch0, ch1] t0 t1 true =
          some (if energy1.gt (double_1_1.mul energy0) = true then "1"
                else if energy0.gt (double_1_1.mul energy1) = true then "0" else "?"))) ∧
    (timestamp_to_sample t1 ch0.length rate ≤ timestamp_to_sample t0 ch0.length rate →
      estimate_diarization_speaker timestamp_to_sample rate [ch0, ch1] t0 t1 true = some "?") ∧
    (0 ≤ timestamp_to_sample t0 ch0.length rate →
      timestamp_to_sample t1 ch0.length rate ≤ ch0.length →
      (∀ j : Nat, (timestamp_to_sample t0 ch0.length rate).toNat ≤ j →
        j < (timestamp_to_sample t1 ch0.length rate).toNat →
        ch0[j]? = some (.fin 0) ∧ ch1[j]? = some (.fin 0)) →
      estimate_diarization_speaker timestamp_to_sample rate [ch0, ch1] t0 t1 true = some "?") := by
  refine ⟨fun id_only => estimate_swap timestamp_to_sample rate ch0 ch1 t0 t1 hlen id_only,
    ?_, ?_, ?_⟩
  · intro energy0 energy1 he0 he1
    have n0 : energy0.is_energy := he0 ▸ window_energy_is_energy _ _ _
    have n1 : energy1.is_energy := he1 ▸ window_energy_is_energy _ _ _
    have excl := energies_exclusive energy0 energy1 n0 n1
    refine ⟨excl, fun h0 h1 => ?_⟩
    rw [estimate_of_window timestamp_to_sample rate ch0 ch1 t0 t1 h0 h1 (hlen ▸ h1), ← he0,
      ← he1, speaker_of_energies]
    congr 1
    by_cases a : energy0.gt (double_1_1.mul energy1) = true
    · have b : ¬ energy1.gt (double_1_1.mul energy0) = true := fun b => excl ⟨a, b⟩
      simp [a, b]
    · simp [a]
  · intro hw
    have hk : (timestamp_to_sample t1 ch0.length rate -
        timestamp_to_sample t0 ch0.length rate).toNat = 0 := by omega
    simp [estimate_diarization_speaker, hk, energy_loop, speaker_silent]
  · intro h0 h1 hz
    have z0 := window_energy_silent ch0 _ _ h0 (fun j a b _ => (hz j a b).1)
    have z1 := window_energy_silent ch1 _ _ h0 (fun j a b _ => (hz j a b).2)
    rw [estimate_of_window timestamp_to_sample rate ch0 ch1 t0 t1 h0 h1 (hlen ▸ h1), z0, z1,
      speaker_silent]

/-- Witness of C10: the channels `[60, -40]` and `[50, 30]` have equal length; over `[0, 2)` the
label of the exchanged pair is the exchanged label of the pair. -/
theorem C10_witness :
    estimate_diarization_speaker (fun t _ _ => t) 16000
        [[.fin 50, .fin 30], [.fin 60, .fin (-40)]] 0 2 true =
      (estimate_diarization_speaker (fun t _ _ => t) 16000
        [[.fin 60, .fin (-40)], [.fin 50, .fin 30]] 0 2 true).map swap_label :=
  (C10_channel_swap_swaps_label (fun t _ _ => t) 16000 [.fin 60, .fin (-40)]
    [.fin 50, .fin 30] 0 2 rfl).1 true

/-! ## Lemmas on the configuration builder -/

theorem isEmpty_eq_false_iff (s : String) : s.isEmpty = false ↔ s ≠ "" := by
  rw [Ne, ← String.isEmpty_iff]
  simp

theorem use_grammar_iff (params : whisper_params) :
    use_grammar params = true ↔
      params.grammar_parsed.rules ≠ [] ∧ params.grammar_rule ≠ "" := by
  simp [use_grammar, isEmpty_eq_false_iff]

theorem find_eq_none_of_absent (g : parse_state) (name : String)
    (h : ∀ id : Nat, (name, id) ∉ g.symbol_ids) : g.find name = none := by
  unfold parse_state.find
  rw [Option.map_eq_none', List.find?_eq_none]
  intro kv hkv hk
  have e : kv.1 = name := by simpa using hk
  exact h kv.2 (by rw [← e]; exact hkv)

theorem wparams_strategy (E : Engine) (params : whisper_params) :
    (run_detection_wparams E params).strategy =
      if params.beam_size > 1 || use_grammar params then WHISPER_SAMPLING_BEAM_SEARCH
      else WHISPER_SAMPLING_GREEDY := by
  unfold run_detection_wparams
  by_cases hg : use_grammar params = true
  · cases hf : params.grammar_parsed.find params.grammar_rule <;> simp [hg, hf]
  · simp [hg]

theorem wparams_no_grammar (E : Engine) (params : whisper_params)
    (h : use_grammar params = false ∨ params.grammar_parsed.find params.grammar_rule = none) :
    (run_detection_wparams E params).grammar_rules =
        (E.whisper_full_default_params WHISPER_SAMPLING_GREEDY).grammar_rules ∧
    (run_detection_wparams E params).n_grammar_rules =
        (E.whisper_full_default_params WHISPER_SAMPLING_GREEDY).n_grammar_rules ∧
    (run_detection_wparams E params).i_start_rule =
        (E.whisper_full_default_params WHISPER_SAMPLING_GREEDY).i_start_rule ∧
    (run_detection_wparams E params).grammar_penalty =
        (E.whisper_full_default_params WHISPER_SAMPLING_GREEDY).grammar_penalty := by
  unfold run_detection_wparams
  rcases h with h | h
  · simp [h]
  · by_cases hg : use_grammar params = true
    · simp [hg, h]
    · simp [hg]

/-! ## C6: strategy selection -/

/-- C6: for every beam size and every rule set and start-rule name, the strategy of the
configuration built by `run_detection` is beam search exactly when `beam_size > 1` or grammar
use is active (rule set not empty and start-rule name not empty), and greedy exactly when
neither holds. -/
theorem C6_strategy_beam_iff_beam_size_or_grammar (E : Engine) (params : whisper_params) :
    ((run_detection_wparams E params).strategy = WHISPER_SAMPLING_BEAM_SEARCH ↔
      (params.beam_size > 1 ∨
        (params.grammar_parsed.rules ≠ [] ∧ params.grammar_rule ≠ ""))) ∧
    ((run_detection_wparams E params).strategy = WHISPER_SAMPLING_GREEDY ↔
      ¬ (params.beam_size > 1 ∨
        (params.grammar_parsed.rules ≠ [] ∧ params.grammar_rule ≠ ""))) := by
  rw [wparams_strategy, ← use_grammar_iff]
  by_cases hb : params.beam_size > 1 <;> by_cases hg : use_grammar params = true <;>
    simp [hb, hg]

/-! ## C8: a start rule the rule set lacks -/

/-- C8: when the rule set is not empty and the requested start rule, not empty either, is
absent from its symbol table, `run_detection` still builds a configuration, whose grammar
fields (rules, rule count, start rule, penalty) are those of the engine defaults: no rules and
count 0 whenever the defaults have none.  The request then goes on to the engine as usual: with
readable audio and status 0 it returns the transcript. -/
theorem C8_absent_start_rule_no_grammar (E : Engine) (params : whisper_params)
    (hrules : params.grammar_parsed.rules ≠ [])
    (hname : params.grammar_rule ≠ "")
    (habsent : ∀ id : Nat, (params.grammar_rule, id) ∉ params.grammar_parsed.symbol_ids) :
    (run_detection_wparams E params).grammar_rules =
        (E.whisper_full_default_params WHISPER_SAMPLING_GREEDY).grammar_rules ∧
    (run_detection_wparams E params).n_grammar_rules =
        (E.whisper_full_default_params WHISPER_SAMPLING_GREEDY).n_grammar_rules ∧
    (run_detection_wparams E params).i_start_rule =
        (E.whisper_full_default_params WHISPER_SAMPLING_GREEDY).i_start_rule ∧
    (run_detection_wparams E params).grammar_penalty =
        (E.whisper_full_default_params WHISPER_SAMPLING_GREEDY).grammar_penalty ∧
    ((E.whisper_full_default_params WHISPER_SAMPLING_GREEDY).grammar_rules = none →
      (E.whisper_full_default_params WHISPER_SAMPLING_GREEDY).n_grammar_rules = 0 →
      (run_detection_wparams E params).grammar_rules = none ∧
      (run_detection_wparams E params).n_grammar_rules = 0) ∧
    (∀ (b64_in : String) (c c' : whisper_context) (pcmf32 : List F64) (pcmf32s : List (List F64)),
      E.read_wav (E.base64_decode b64_in) = some (pcmf32, pcmf32s) →
      E.whisper_full_parallel c (run_detection_wparams E params) pcmf32 params.n_processors
        = (0, c') →
      run_detection_body E params b64_in (some c) =
        some (output_json c' pcmf32s params.output_jsn_full, some c')) := by
  have _used : use_grammar params = true := (use_grammar_iff params).2 ⟨hrules, hname⟩
  obtain ⟨a, b, c, d⟩ :=
    wparams_no_grammar E params (Or.inr (find_eq_none_of_absent _ _ habsent))
  refine ⟨a, b, c, d, fun h1 h2 => ⟨a.trans h1, b.trans h2⟩, ?_⟩
  intro b64_in c c' pcmf32 pcmf32s hwav hrun
  simp [run_detection_body, hwav, hrun]

/-- Witness of C8: the rule set of the test grammar (one rule, `root`) with the requested start
rule `move`: the configuration has no rules and rule count 0. -/
theorem C8_witness :
    (run_detection_wparams demo_engine demo_params_absent_rule).grammar_rules = none ∧
    (run_detection_wparams demo_engine demo_params_absent_rule).n_grammar_rules = 0 :=
  (C8_absent_start_rule_no_grammar demo_engine demo_params_absent_rule (by decide) (by decide)
    (by intro id h; simp [demo_params_absent_rule, demo_parse] at h)).2.2.2.2.1 rfl rfl

/-! ## C9: a grammar source that parses to nothing -/

/-- C9: when a grammar source is supplied (`params.grammar` not empty) and its parse (of the
file of that name when it exists, of the text itself otherwise) has zero rules, `init_model`
returns the null pointer. -/
theorem C9_empty_grammar_fails_init (E : Engine) (params : whisper_params)
    (hsupplied : params.grammar ≠ "")
    (hzero : (if E.is_file_exist params.grammar = true
              then E.parse (E.read_file params.grammar)
              else E.parse params.grammar).rules = []) :
    init_model_body E params = none := by
  have hg : (init_model_grammar E params).rules = [] := by
    unfold init_model_grammar
    by_cases hf : E.is_file_exist params.grammar = true
    · simpa [hf] using hzero
    · simpa [hf] using hzero
  have he : params.grammar.isEmpty = false := (isEmpty_eq_false_iff _).2 hsupplied
  unfold init_model_body
  simp only [he, hg, Bool.not_false, List.isEmpty_nil, if_true]
  split_ifs <;> first | rfl | (split <;> first | rfl | (split <;> rfl))

/-- Witness of C9: with the grammar source `root = yes`, which does not parse, `init_model` on
a loadable model returns the null pointer. -/
theorem C9_witness : init_model_body demo_engine demo_params_bad_grammar = none :=
  C9_empty_grammar_fails_init demo_engine demo_params_bad_grammar (by decide) (by decide)

/-! ## Lemmas on `init_model` and the handlers -/

theorem init_model_params_fields (E : Engine) (model_path language : String) :
    (init_model_params E model_path language).model = model_path ∧
    (init_model_params E model_path language).language = language ∧
    (init_model_params E model_path language).grammar = "" ∧
    (init_model_params E model_path language).dtw = "" := by
  simp [init_model_params, whisper_params.init]

theorem init_model_none_of_unknown_lang (E : Engine) (model_path language : String)
    (hauto : language ≠ "auto") (hid : E.whisper_lang_id language = -1) :
    init_model E model_path language = none := by
  obtain ⟨-, hl, -, -⟩ := init_model_params_fields E model_path language
  unfold init_model init_model_body
  simp [hl, hauto, hid]

theorem handle_init_model_failed (E : Engine) (s : State) (A : whisper_context) (json : Json)
    (model_path language : String) (hA : s.ctx = some A) (hjson : json.is_null = false)
    (hmodel : json.get "modelpath" = some model_path) (hlang : json.get "lang" = some language)
    (hinit : init_model E model_path language = none) :
    handle_init_model E s json =
      ({ status := some 500,
         body := "Could not initialize model. Maybe model path is wrong?",
         content_type := "text/plain" },
       { ctx := none, freed := A.addr :: s.freed }) := by
  simp [handle_init_model, hA, hjson, hmodel, hlang, hinit, Response.init, Response.set_content]

/-- C2 (as stated, refuted): with model A active, a reconfigure request with a language code
the engine does not know is rejected (500), and afterwards A is not the active handle: the
global is null and the address of A has been given to `whisper_free`. -/
theorem C2_counterexample :
    demo_state_a.ctx = some demo_model_a ∧
    demo_engine.whisper_lang_id "xx" = -1 ∧
    (handle_init_model demo_engine demo_state_a demo_req_unknown_lang).1.status = some 500 ∧
    (handle_init_model demo_engine demo_state_a demo_req_unknown_lang).2.ctx
      ≠ some demo_model_a ∧
    demo_model_a.addr ∈ (handle_init_model demo_engine demo_state_a demo_req_unknown_lang).2.freed
    := by
  decide

/-- C2 (amended): a reconfigure request rejected for a null body, a missing model path or a
missing language field answers 400 and leaves the state as it was.  A request rejected for a
language code other than "auto" that the engine does not know answers 500 after the active
handle has been released: the global handle is null afterwards.  No request names an
alignment preset: `init_model` runs with an empty `dtw`. -/
theorem C2_validation_errors_and_state (E : Engine) (s : State) (json : Json) :
    ((json.is_null = true ∨ json.get "modelpath" = none ∨ json.get "lang" = none) →
      (handle_init_model E s json).1.status = some 400 ∧
      (handle_init_model E s json).2 = s) ∧
    (∀ (A : whisper_context) (model_path language : String),
      s.ctx = some A → json.is_null = false →
      json.get "modelpath" = some model_path → json.get "lang" = some language →
      language ≠ "auto" → E.whisper_lang_id language = -1 →
      (handle_init_model E s json).1.status = some 500 ∧
      (handle_init_model E s json).2 = { ctx := none, freed := A.addr :: s.freed }) ∧
    (∀ model_path language : String, (init_model_params E model_path language).dtw = "") := by
  refine ⟨?_, ?_, fun m l => (init_model_params_fields E m l).2.2.2⟩
  · intro h
    unfold handle_init_model
    by_cases h1 : json.is_null = true
    · simp [h1, Response.set_content]
    · by_cases h2 : json.get "modelpath" = none
      · simp [h1, h2, Response.set_content]
      · have h3 : json.get "lang" = none := by
          rcases h with h | h | h
          · exact absurd h h1
          · exact absurd h h2
          · exact h
        simp [h1, h2, h3, Response.set_content]
  · intro A model_path language hA hjson hmodel hlang hauto hid
    rw [handle_init_model_failed E s A json model_path language hA hjson hmodel hlang
      (init_model_none_of_unknown_lang E model_path language hauto hid)]
    exact ⟨rfl, rfl⟩

/-- Witness of C2: on the test double, with model A active, the request without a language
field answers 400 and leaves the state untouched, and the request with the unknown language
code "xx" answers 500 and leaves no active handle, A released. -/
theorem C2_witness :
    ((handle_init_model demo_engine demo_state_a demo_req_no_lang).1.status = some 400 ∧
      (handle_init_model demo_engine demo_state_a demo_req_no_lang).2 = demo_state_a) ∧
    ((handle_init_model demo_engine demo_state_a demo_req_unknown_lang).1.status = some 500 ∧
      (handle_init_model demo_engine demo_state_a demo_req_unknown_lang).2 =
        { ctx := none, freed := [1] }) :=
  ⟨(C2_validation_errors_and_state demo_engine demo_state_a demo_req_no_lang).1
      (Or.inr (Or.inr (by decide))),
   (C2_validation_errors_and_state demo_engine demo_state_a demo_req_unknown_lang).2.1
      demo_model_a "models/a.bin" "xx" rfl rfl (by decide) (by decide) (by decide) (by decide)⟩

/-! ## Lemmas on `run_detection` -/

theorem run_detection_params_fields (E : Engine) (lang : String) :
    (run_detection_params E lang).grammar_parsed = parse_state.empty ∧
    (run_detection_params E lang).grammar_rule = "" ∧
    (run_detection_params E lang).n_processors = 1 ∧
    (run_detection_params E lang).output_jsn_full = false ∧
    (run_detection_params E lang).beam_size =
      (E.whisper_full_default_params WHISPER_SAMPLING_BEAM_SEARCH).beam_search_beam_size := by
  simp [run_detection_params, whisper_params.init]

theorem output_json_length (ctx : whisper_context) (pcmf32s : List (List F64)) (full : Bool) :
    (output_json ctx pcmf32s full).length = 0 ↔ ctx.segments = [] := by
  rw [output_json_eq_join]
  cases h : ctx.segments with
  | nil => simp [String.join]
  | cons a l =>
    simp only [List.map_cons, join_cons_eq, String.length_append]
    have : " ".length = 1 := by decide
    constructor
    · intro h0; omega
    · intro h0; exact absurd h0 (List.cons_ne_nil a l)

theorem handle_run_detection_decoded (E : Engine) (s : State) (c c' : whisper_context)
    (json : Json) (wavdata lang : String) (pcmf32 : List F64) (pcmf32s : List (List F64))
    (hctx : s.ctx = some c) (hjson : json.is_null = false)
    (hlang : json.get "lang" = some lang) (hwav : json.get "wavdata" = some wavdata)
    (hread : E.read_wav (E.base64_decode wavdata) = some (pcmf32, pcmf32s))
    (hrun : E.whisper_full_parallel c (run_detection_wparams E (run_detection_params E lang))
      pcmf32 1 = (0, c')) :
    handle_run_detection E s json =
      if (output_json c' pcmf32s false).length = 0 then
        some ({ status := some 500, body := "Error occured while detecting speech",
                content_type := "text/plain" }, { s with ctx := some c' })
      else
        some ({ status := none, body := output_json c' pcmf32s false,
                content_type := "plain/text" }, { s with ctx := some c' }) := by
  obtain ⟨-, -, hn, hf, -⟩ := run_detection_params_fields E lang
  simp only [handle_run_detection, run_detection, run_detection_body, hctx, hjson, hlang, hwav,
    hread, hn, hf, hrun, Option.getD_some]
  by_cases h0 : (output_json c' pcmf32s false).length = 0
  · simp [h0, Response.init, Response.set_content]
  · simp [h0, Response.init, Response.set_content]

/-! ## C3: a decode with status 0 -/

/-- C3 (as stated, refuted): on the test double the silent payload is read, the decode has
status 0 and no segment, and the transcribe request answers 500, not a success with an empty
transcript. -/
theorem C3_counterexample :
    (demo_engine.read_wav (demo_engine.base64_decode "silence")).isSome = true ∧
    (demo_engine.whisper_full_parallel demo_model_a
      (run_detection_wparams demo_engine (run_detection_params demo_engine "en"))
      [.fin 0, .fin 0, .fin 0, .fin 0] 1) = (0, { addr := 1, segments := [] }) ∧
    (handle_run_detection demo_engine demo_state_a demo_req_silence).map (fun r => r.1) =
      some { status := some 500, body := "Error occured while detecting speech",
             content_type := "text/plain" } := by
  decide

/-- C3 (amended): for a transcribe request whose audio is read and whose decode returns
status 0, the request succeeds and returns the transcript of `output_json` when the engine
produced at least one segment; with zero segments the transcript is empty and the handler
answers 500 with its error text. -/
theorem C3_status_zero_succeeds_iff_segments (E : Engine) (s : State) (c c' : whisper_context)
    (json : Json) (wavdata lang : String) (pcmf32 : List F64) (pcmf32s : List (List F64))
    (hctx : s.ctx = some c) (hjson : json.is_null = false)
    (hlang : json.get "lang" = some lang) (hwav : json.get "wavdata" = some wavdata)
    (hread : E.read_wav (E.base64_decode wavdata) = some (pcmf32, pcmf32s))
    (hrun : E.whisper_full_parallel c (run_detection_wparams E (run_detection_params E lang))
      pcmf32 1 = (0, c')) :
    (c'.segments ≠ [] →
      handle_run_detection E s json =
        some ({ status := none, body := output_json c' pcmf32s false,
                content_type := "plain/text" }, { s with ctx := some c' })) ∧
    (c'.segments = [] →
      handle_run_detection E s json =
        some ({ status := some 500, body := "Error occured while detecting speech",
                content_type := "text/plain" }, { s with ctx := some c' })) := by
  have h := handle_run_detection_decoded E s c c' json wavdata lang pcmf32 pcmf32s hctx hjson
    hlang hwav hread hrun
  constructor
  · intro hs
    have h0 : ¬ (output_json c' pcmf32s false).length = 0 :=
      fun h0 => hs ((output_json_length c' pcmf32s false).1 h0)
    rw [h, if_neg h0]
  · intro hs
    have h0 : (output_json c' pcmf32s false).length = 0 :=
      (output_json_length c' pcmf32s false).2 hs
    rw [h, if_pos h0]

/-- Witness of C3: on the test double the audible payload decodes to two segments and the
request succeeds with the transcript; the silent payload decodes to no segment and the request
answers 500. -/
theorem C3_witness :
    handle_run_detection demo_engine demo_state_a demo_req_speech =
      some ({ status := none, body := " hello  world ", content_type := "plain/text" },
            { ctx := some { addr := 1, segments := [" hello", " world"] }, freed := [] }) ∧
    handle_run_detection demo_engine demo_state_a demo_req_silence =
      some ({ status := some 500, body := "Error occured while detecting speech",
              content_type := "text/plain" },
            { ctx := some { addr := 1, segments := [] }, freed := [] }) :=
  ⟨(C3_status_zero_succeeds_iff_segments demo_engine demo_state_a demo_model_a
      { addr := 1, segments := [" hello", " world"] } demo_req_speech "speech" "en"
      [.fin (1 / 2), .fin (-1 / 2)] [] rfl rfl (by decide) (by decide) rfl rfl).1 (by decide),
   (C3_status_zero_succeeds_iff_segments demo_engine demo_state_a demo_model_a
      { addr := 1, segments := [] } demo_req_silence "silence" "en"
      [.fin 0, .fin 0, .fin 0, .fin 0] [] rfl rfl (by decide) (by decide) rfl rfl).2 rfl⟩

/-! ## The grammar seen by `run_detection` -/

/-- The configuration built by `run_detection` as called carries no grammar: its parameters are
fresh, with an empty rule set and an empty start-rule name, so grammar use is off, the grammar
fields stay at the engine defaults, and the strategy is beam search exactly when the default
beam size exceeds 1.  `init_model` as called has an empty grammar source, and its result does
not depend on the grammar parser. -/
theorem run_detection_carries_no_grammar (E : Engine) (lang : String) :
    (run_detection_params E lang).grammar_parsed = parse_state.empty ∧
    (run_detection_params E lang).grammar_rule = "" ∧
    use_grammar (run_detection_params E lang) = false ∧
    (run_detection_wparams E (run_detection_params E lang)).grammar_rules =
        (E.whisper_full_default_params WHISPER_SAMPLING_GREEDY).grammar_rules ∧
    (run_detection_wparams E (run_detection_params E lang)).n_grammar_rules =
        (E.whisper_full_default_params WHISPER_SAMPLING_GREEDY).n_grammar_rules ∧
    (run_detection_wparams E (run_detection_params E lang)).i_start_rule =
        (E.whisper_full_default_params WHISPER_SAMPLING_GREEDY).i_start_rule ∧
    (run_detection_wparams E (run_detection_params E lang)).grammar_penalty =
        (E.whisper_full_default_params WHISPER_SAMPLING_GREEDY).grammar_penalty ∧
    ((run_detection_wparams E (run_detection_params E lang)).strategy =
        WHISPER_SAMPLING_BEAM_SEARCH ↔
      (E.whisper_full_default_params WHISPER_SAMPLING_BEAM_SEARCH).beam_search_beam_size > 1) ∧
    (∀ model_path language : String,
      (init_model_params E model_path language).grammar = "" ∧
      ∀ parse_fn : String → parse_state,
        init_model { E with parse := parse_fn } model_path language =
          init_model E model_path language) := by
  obtain ⟨hp, hr, -, -, hb⟩ := run_detection_params_fields E lang
  have hu : use_grammar (run_detection_params E lang) = false := by
    simp [use_grammar, hp, parse_state.empty]
  obtain ⟨a, b, c, d⟩ := wparams_no_grammar E (run_detection_params E lang) (Or.inl hu)
  refine ⟨hp, hr, hu, a, b, c, d, ?_, ?_⟩
  · rw [wparams_strategy, hu, hb]
    by_cases h : (E.whisper_full_default_params WHISPER_SAMPLING_BEAM_SEARCH).beam_search_beam_size > 1
    · simp [h]
    · simp [h]
  · intro model_path language
    refine ⟨(init_model_params_fields E model_path language).2.2.1, fun parse_fn => ?_⟩
    have he : "".isEmpty = true := by decide
    simp [init_model, init_model_body, init_model_params, whisper_params.init, he]

end WhisperApp
